import Mathlib

/-!
# Verification of the goenvconf value-resolution core

A shallow embedding of the goenvconf Go package: the dual-representation
typed configuration values (`EnvString`, `EnvInt`, …, `EnvMapBool`,
`EnvAny`), their resolution methods (`Get`, `GetCustom`, `GetOrDefault`),
the composite-string parsers, and the equality/zero-value semantics.

Modelling conventions:
* Go strings are modelled as `List Char` (`GoStr`); `gs` injects Lean
  string literals.
* The process environment is a function `GoStr → Option GoStr`
  (`none` = variable undefined, `some v` = defined with raw value `v`,
  possibly empty).  `os.LookupEnv` and `os.Getenv` are derived from it.
* A Go `(T, error)` return pair is modelled as `Except GoErr T`
  (Go callers of these APIs ignore the value component when the error is
  non-nil, so the identification `(v, nil) ↦ ok v`, `(_, err) ↦ error err`
  is faithful for every observable use).
* Go `*T` / nil-able slice and map fields are `Option _`.
* Go `map[string]T` values are association lists without duplicate keys
  (Go maps cannot hold duplicate keys); `maps.Equal` is `goMapEqual`.
* Go `float64` is modelled as `Rat` and `strconv.ParseFloat` as an exact
  decimal parser (no IEEE rounding; the claims below depend only on
  whether a float parse is attempted or fails, never on rounded values).
* The generic integer type parameter `T` of the integer parsers is
  modelled by its bit width and signedness; the Go conversion `T(v)`
  is two's-complement wrapping (`intConv`).
-/

set_option autoImplicit false

namespace Goenvconf

/-- Go `string`, modelled as a list of characters. -/
abbrev GoStr := List Char

/-- Inject a Lean string literal into the model. -/
def gs (s : String) : GoStr := s.toList

/-- Go `unicode.IsSpace` restricted to the ASCII white-space characters
(the only ones exercised anywhere in this development). -/
def goIsSpace (c : Char) : Bool :=
  c = ' ' || c = '\t' || c = '\n' || c = '\r' ||
  c = (Char.ofNat 11) || c = (Char.ofNat 12)

/-- Go `strings.TrimSpace`: drop white space from both ends. -/
def trimSpace (s : GoStr) : GoStr :=
  ((s.dropWhile goIsSpace).reverse.dropWhile goIsSpace).reverse

/-- Go `strings.Split` with a one-character separator (every separator in
this package is one character).  `splitOn c s` is never empty, and
`splitOn c [] = [[]]`, exactly as in Go. -/
def splitOn (c : Char) : GoStr → List GoStr
  | [] => [[]]
  | x :: xs =>
    match splitOn c xs with
    | [] => [[]]
    | y :: ys => if x = c then [] :: y :: ys else (x :: y) :: ys

/-- Decimal digit to character (`0 ↦ '0'`, …). -/
def digitChar (n : Nat) : Char := Char.ofNat (48 + n)

/-- Fuel-driven core of `itoa`. -/
def itoaAux : Nat → Nat → GoStr
  | 0, _ => []
  | fuel + 1, n =>
    if n < 10 then [digitChar n]
    else itoaAux fuel (n / 10) ++ [digitChar (n % 10)]

/-- Go `strconv.Itoa` on natural numbers (the package only stringifies
non-negative indices). -/
def itoa (n : Nat) : GoStr := itoaAux (n + 1) n

/-- Go `strconv.ParseInt(s, 10, 64)`: optional sign, at least one decimal
digit, signed 64-bit range check.  `none` models a non-nil error. -/
def parseInt64 (s : GoStr) : Option Int :=
  match s with
  | [] => none
  | c :: rest =>
    let signDigits : Bool × GoStr :=
      if c = '-' then (true, rest)
      else if c = '+' then (false, rest)
      else (false, c :: rest)
    let neg := signDigits.1
    let digits := signDigits.2
    if digits = [] then none
    else if digits.all Char.isDigit then
      let n : Nat := digits.foldl (fun acc d => acc * 10 + (d.toNat - 48)) 0
      let v : Int := if neg then -(n : Int) else (n : Int)
      if -(2 ^ 63) ≤ v ∧ v ≤ 2 ^ 63 - 1 then some v else none
    else none

/-- Go `strconv.ParseBool`: accepts exactly the twelve lexical variants. -/
def parseBoolGo (s : GoStr) : Option Bool :=
  if s = gs "1" ∨ s = gs "t" ∨ s = gs "T" ∨ s = gs "TRUE" ∨
     s = gs "true" ∨ s = gs "True" then some true
  else if s = gs "0" ∨ s = gs "f" ∨ s = gs "F" ∨ s = gs "FALSE" ∨
     s = gs "false" ∨ s = gs "False" then some false
  else none

/-- Digits of a `GoStr` read as a natural number (helper for
`parseFloat64`). -/
def digitsToNat (ds : GoStr) : Nat :=
  ds.foldl (fun acc d => acc * 10 + (d.toNat - 48)) 0

/-- Go `strconv.ParseFloat(s, 64)` modelled as an exact decimal parser
over `Rat`: optional sign, decimal digits with an optional fractional
part, at least one digit overall.  (Hex floats, exponents, `Inf` and
`NaN` are outside the model; no claim below depends on a parsed float
value, only on whether parsing is attempted and whether it fails, and
the empty string fails here exactly as in Go.) -/
def parseFloat64 (s : GoStr) : Option Rat :=
  match s with
  | [] => none
  | c :: rest =>
    let signDigits : Bool × GoStr :=
      if c = '-' then (true, rest)
      else if c = '+' then (false, rest)
      else (false, c :: rest)
    let neg := signDigits.1
    let body := signDigits.2
    let intPart := body.takeWhile Char.isDigit
    let afterInt := body.dropWhile Char.isDigit
    match afterInt with
    | [] =>
      if intPart = [] then none
      else
        let v : Rat := (digitsToNat intPart : Rat)
        some (if neg then -v else v)
    | dot :: frac =>
      if dot = '.' ∧ frac.all Char.isDigit ∧ (intPart ≠ [] ∨ frac ≠ []) then
        let v : Rat :=
          (digitsToNat intPart : Rat) +
            (digitsToNat frac : Rat) / ((10 : Rat) ^ frac.length)
        some (if neg then -v else v)
      else none

/-- The Go conversion `T(v)` from `int64` to the integer type `T` of the
given bit `width` and signedness: two's-complement wrapping, exactly as
Go specifies for integer conversions. -/
def intConv (width : Nat) (signed : Bool) (v : Int) : Int :=
  let m := v % ((2 : Int) ^ width)
  if signed then (if (2 : Int) ^ (width - 1) ≤ m then m - (2 : Int) ^ width else m)
  else m

/-! ## Error taxonomy

The package's error values, as a closed inductive type.  `errors.Is`
against the sentinel `ErrEnvironmentVariableValueRequired` is
`isVariableValueRequired` (the wrapping in `getEnvVariableValueRequiredError`
preserves the sentinel in the error chain). -/

/-- The distinguishable error values produced by the package. -/
inductive GoErr where
  /-- `ErrEnvironmentValueRequired`: both literal and variable absent. -/
  | valueRequired
  /-- `ErrEnvironmentVariableValueRequired`, optionally wrapped with the
  variable name by `getEnvVariableValueRequiredError` (the `name`
  component carries the `Variable` field it was built from). -/
  | variableValueRequired (name : Option GoStr)
  /-- A `strconv` conversion failure (`*strconv.NumError`) on the given
  input, returned verbatim by the scalar resolvers. -/
  | numError (input : GoStr)
  /-- `NewParseEnvFailedError(description, hint)`. -/
  | parseEnvFailed (description hint : GoStr)
  /-- An arbitrary error returned by a caller-supplied source function. -/
  | custom (msg : GoStr)
  deriving DecidableEq

instance {ε α : Type} [DecidableEq ε] [DecidableEq α] :
    DecidableEq (Except ε α) := fun a b =>
  match a, b with
  | .ok x, .ok y =>
    if h : x = y then .isTrue (by rw [h]) else .isFalse (by simp [h])
  | .ok _, .error _ => .isFalse (by simp)
  | .error _, .ok _ => .isFalse (by simp)
  | .error x, .error y =>
    if h : x = y then .isTrue (by rw [h]) else .isFalse (by simp [h])

/-- `errors.Is(e, ErrEnvironmentVariableValueRequired)`. -/
def GoErr.isVariableValueRequired : GoErr → Bool
  | .variableValueRequired _ => true
  | _ => false

/-- `getEnvVariableValueRequiredError(envName)`: wraps the sentinel with
the variable name when the pointer is non-nil. -/
def getEnvVariableValueRequiredError (envName : Option GoStr) : GoErr :=
  .variableValueRequired envName

/-- `NewParseEnvFailedError(description, hint)`. -/
def NewParseEnvFailedError (description hint : GoStr) : GoErr :=
  .parseEnvFailed description hint

/-! ## Variable sources -/

/-- The process environment: `none` = undefined, `some v` = defined with
raw value `v` (possibly empty). -/
abbrev Env := GoStr → Option GoStr

/-- Go `os.LookupEnv`: the raw value and the definedness flag. -/
def osLookupEnv (env : Env) (name : GoStr) : GoStr × Bool :=
  match env name with
  | some v => (v, true)
  | none => ([], false)

/-- Go `os.Getenv`: the raw value, with undefined collapsing to the
empty string. -/
def osGetenv (env : Env) (name : GoStr) : GoStr :=
  (env name).getD []

/-- `GetEnvFunc`: a caller-supplied variable source. -/
abbrev GetEnvFunc := GoStr → Except GoErr GoStr

/-- `GetOSEnv`: the `GetEnvFunc` backed by the given process
environment; an undefined variable is reported via the
`ErrEnvironmentVariableValueRequired` sentinel. -/
def GetOSEnv (env : Env) : GetEnvFunc := fun s =>
  match env s with
  | some v => .ok v
  | none => .error (.variableValueRequired none)

/-! ## Go map and slice values -/

/-- Lookup in a Go map modelled as an association list. -/
def goLookup {α : Type} (k : GoStr) : List (GoStr × α) → Option α
  | [] => none
  | (k₁, v) :: rest => if k₁ = k then some v else goLookup k rest

/-- Go map assignment `m[k] = v`: overwrite the existing entry or append
a new one (last write wins). -/
def goMapInsert {α : Type} : List (GoStr × α) → GoStr → α → List (GoStr × α)
  | [], k, v => [(k, v)]
  | (k₁, v₁) :: rest, k, v =>
    if k₁ = k then (k₁, v) :: rest else (k₁, v₁) :: goMapInsert rest k v

/-- Go `maps.Equal`: same length and every key/value pair of the first
map found identically in the second. -/
def goMapEqual {α : Type} [DecidableEq α]
    (m₁ m₂ : List (GoStr × α)) : Bool :=
  decide (m₁.length = m₂.length) &&
    m₁.all fun kv => decide (goLookup kv.1 m₂ = some kv.2)

/-- Well-formedness of a Go map value: no duplicate keys (automatic for
every value a Go `map` can hold). -/
def GoMapWF {α : Type} (m : List (GoStr × α)) : Prop :=
  (m.map Prod.fst).Nodup

/-- Well-formedness of a nil-able Go map field. -/
def GoMapValueWF {α : Type} (v : Option (List (GoStr × α))) : Prop :=
  GoMapWF (v.getD [])

instance {α : Type} (m : List (GoStr × α)) : Decidable (GoMapWF m) :=
  inferInstanceAs (Decidable ((m.map Prod.fst).Nodup))

instance {α : Type} (v : Option (List (GoStr × α))) :
    Decidable (GoMapValueWF v) :=
  inferInstanceAs (Decidable (GoMapWF (v.getD [])))

/-- Go `slices.Equal` on nil-able slices: nil and the empty slice
compare equal, otherwise element-wise equality. -/
def goSlicesEqual {α : Type} [DecidableEq α]
    (a b : Option (List α)) : Bool :=
  decide (a.getD [] = b.getD [])

/-! ## Composite-string parsers -/

/-- The diagnostic description used by `ParseStringMapFromString`. -/
def stringMapSyntaxMsg : GoStr :=
  gs "invalid string map syntax, expected: <key1>=<value1>;<key2>=<value2>"

/-- The per-pair loop of `ParseStringMapFromString`: split each raw item
on `=`, require exactly two parts and a non-empty key, assign into the
accumulated map. -/
def parseStringMapItems (acc : List (GoStr × GoStr)) :
    List GoStr → Except GoErr (List (GoStr × GoStr))
  | [] => .ok acc
  | rawItem :: rest =>
    match splitOn '=' rawItem with
    | [k, v] =>
      if k = [] then .error (NewParseEnvFailedError stringMapSyntaxMsg k)
      else parseStringMapItems (goMapInsert acc k v) rest
    | k :: _ => .error (NewParseEnvFailedError stringMapSyntaxMsg k)
    | [] => .error (NewParseEnvFailedError stringMapSyntaxMsg [])

/-- `ParseStringMapFromString`: decode `<key1>=<value1>;<key2>=<value2>`;
the empty input yields the empty map. -/
def ParseStringMapFromString (input : GoStr) :
    Except GoErr (List (GoStr × GoStr)) :=
  if input = [] then .ok []
  else parseStringMapItems [] (splitOn ';' input)

/-- The value-conversion loop of `ParseIntegerMapFromString` over the
raw map entries (Go iterates the map; the model iterates in insertion
order, one admissible iteration order). -/
def parseIntegerMapValues (width : Nat) (signed : Bool)
    (acc : List (GoStr × Int)) :
    List (GoStr × GoStr) → Except GoErr (List (GoStr × Int))
  | [] => .ok acc
  | (key, value) :: rest =>
    match parseInt64 value with
    | none => .error (NewParseEnvFailedError (gs "invalid integer map syntax") key)
    | some intValue =>
      parseIntegerMapValues width signed
        (goMapInsert acc key (intConv width signed intValue)) rest

/-- `ParseIntegerMapFromString[T]` for the integer type of the given
width and signedness: string-map parse, then
`strconv.ParseInt(value, 10, 64)` and the Go conversion `T(intValue)`
per entry. -/
def ParseIntegerMapFromString (width : Nat) (signed : Bool)
    (input : GoStr) : Except GoErr (List (GoStr × Int)) :=
  match ParseStringMapFromString input with
  | .error e => .error e
  | .ok rawValues => parseIntegerMapValues width signed [] rawValues

/-- The value-conversion loop of `ParseFloatMapFromString`. -/
def parseFloatMapValues (acc : List (GoStr × Rat)) :
    List (GoStr × GoStr) → Except GoErr (List (GoStr × Rat))
  | [] => .ok acc
  | (key, value) :: rest =>
    match parseFloat64 value with
    | none => .error (NewParseEnvFailedError (gs "invalid float map syntax") key)
    | some floatValue =>
      parseFloatMapValues (goMapInsert acc key floatValue) rest

/-- `ParseFloatMapFromString[float64]`. -/
def ParseFloatMapFromString (input : GoStr) :
    Except GoErr (List (GoStr × Rat)) :=
  match ParseStringMapFromString input with
  | .error e => .error e
  | .ok rawValues => parseFloatMapValues [] rawValues

/-- The value-conversion loop of `ParseBoolMapFromString`. -/
def parseBoolMapValues (acc : List (GoStr × Bool)) :
    List (GoStr × GoStr) → Except GoErr (List (GoStr × Bool))
  | [] => .ok acc
  | (key, value) :: rest =>
    match parseBoolGo value with
    | none => .error (NewParseEnvFailedError (gs "invalid boolean map syntax") key)
    | some boolValue =>
      parseBoolMapValues (goMapInsert acc key boolValue) rest

/-- `ParseBoolMapFromString`. -/
def ParseBoolMapFromString (input : GoStr) :
    Except GoErr (List (GoStr × Bool)) :=
  match ParseStringMapFromString input with
  | .error e => .error e
  | .ok rawValues => parseBoolMapValues [] rawValues

/-- `ParseStringSliceFromString`: `strings.Split(input, ",")`, no
trimming, never an error.  (`splitOn` on the empty string yields the
one-element list containing the empty string, as in Go.) -/
def ParseStringSliceFromString (input : GoStr) : List GoStr :=
  splitOn ',' input

/-- The indexed conversion loop of
`parseIntSliceFromStringWithErrorPrefix`. -/
def parseIntSliceItems (width : Nat) (signed : Bool)
    (errorPrefix : GoStr) (index : Nat) :
    List GoStr → Except GoErr (List Int)
  | [] => .ok []
  | val :: rest =>
    match parseInt64 (trimSpace val) with
    | none =>
      .error (NewParseEnvFailedError
        (errorPrefix ++ gs "invalid integer slice syntax") (itoa index))
    | some intVal =>
      match parseIntSliceItems width signed errorPrefix (index + 1) rest with
      | .error e => .error e
      | .ok results => .ok (intConv width signed intVal :: results)

/-- `parseIntSliceFromStringWithErrorPrefix[T]` for the integer type of
the given width and signedness: comma split, per-item
`strconv.ParseInt(strings.TrimSpace(val), 10, 64)`, Go conversion
`T(intVal)`. -/
def parseIntSliceFromStringWithErrorPrefix (width : Nat) (signed : Bool)
    (input errorPrefix : GoStr) : Except GoErr (List Int) :=
  parseIntSliceItems width signed errorPrefix 0
    (ParseStringSliceFromString input)

/-- `ParseIntSliceFromString[T]`. -/
def ParseIntSliceFromString (width : Nat) (signed : Bool)
    (input : GoStr) : Except GoErr (List Int) :=
  parseIntSliceFromStringWithErrorPrefix width signed input []

/-- The indexed conversion loop of
`parseFloatSliceFromStringWithErrorPrefix`. -/
def parseFloatSliceItems (errorPrefix : GoStr) (index : Nat) :
    List GoStr → Except GoErr (List Rat)
  | [] => .ok []
  | val :: rest =>
    match parseFloat64 (trimSpace val) with
    | none =>
      .error (NewParseEnvFailedError
        (errorPrefix ++ gs "invalid floating-point number slice syntax")
        (itoa index))
    | some floatVal =>
      match parseFloatSliceItems errorPrefix (index + 1) rest with
      | .error e => .error e
      | .ok results => .ok (floatVal :: results)

/-- `parseFloatSliceFromStringWithErrorPrefix[float64]`. -/
def parseFloatSliceFromStringWithErrorPrefix
    (input errorPrefix : GoStr) : Except GoErr (List Rat) :=
  parseFloatSliceItems errorPrefix 0 (ParseStringSliceFromString input)

/-- The indexed conversion loop of
`parseBoolSliceFromStringWithErrorPrefix`. -/
def parseBoolSliceItems (errorPrefix : GoStr) (index : Nat) :
    List GoStr → Except GoErr (List Bool)
  | [] => .ok []
  | val :: rest =>
    match parseBoolGo (trimSpace val) with
    | none =>
      .error (NewParseEnvFailedError
        (errorPrefix ++ gs "invalid boolean slice syntax") (itoa index))
    | some boolVal =>
      match parseBoolSliceItems errorPrefix (index + 1) rest with
      | .error e => .error e
      | .ok results => .ok (boolVal :: results)

/-- `parseBoolSliceFromStringWithErrorPrefix`. -/
def parseBoolSliceFromStringWithErrorPrefix
    (input errorPrefix : GoStr) : Except GoErr (List Bool) :=
  parseBoolSliceItems errorPrefix 0 (ParseStringSliceFromString input)

/-! ## Scalar typed values -/

/-- `EnvString`: a literal string or an environment reference. -/
structure EnvString where
  Value : Option GoStr
  Variable : Option GoStr
  deriving DecidableEq

/-- `EnvString.IsZero`: variable absent-or-empty and literal absent. -/
def EnvString.IsZero (ev : EnvString) : Bool :=
  decide (ev.Variable = none ∨ ev.Variable = some []) && ev.Value.isNone

/-- `EnvString.Get`: zero check, then `os.LookupEnv` when the variable
name is present and non-empty; a non-empty raw value is returned
directly; otherwise the literal; otherwise the empty string when the
variable was defined; otherwise the variable-value-required error. -/
def EnvString.Get (ev : EnvString) (env : Env) : Except GoErr GoStr :=
  if ev.IsZero then .error .valueRequired
  else
    let probe : GoStr × Bool :=
      match ev.Variable with
      | some name => if name ≠ [] then osLookupEnv env name else ([], false)
      | none => ([], false)
    let value := probe.1
    let envExisted := probe.2
    if value ≠ [] then .ok value
    else
      match ev.Value with
      | some v => .ok v
      | none =>
        if envExisted then .ok []
        else .error (getEnvVariableValueRequiredError ev.Variable)

/-- `EnvString.GetOrDefault`: `Get`, substituting the default both for
the `ErrEnvironmentVariableValueRequired` error and for a successful
empty-string result. -/
def EnvString.GetOrDefault (ev : EnvString) (defaultValue : GoStr)
    (env : Env) : Except GoErr GoStr :=
  match ev.Get env with
  | .error err =>
    if err.isVariableValueRequired then .ok defaultValue else .error err
  | .ok result => .ok (if result = [] then defaultValue else result)

/-- `EnvString.GetCustom`: zero check, then the supplied source's result
is returned verbatim whenever the variable name is present and
non-empty; only a nil-or-empty variable name falls back to the
literal. -/
def EnvString.GetCustom (ev : EnvString) (getFunc : GetEnvFunc) :
    Except GoErr GoStr :=
  if ev.IsZero then .error .valueRequired
  else
    match ev.Variable with
    | some name =>
      if name ≠ [] then getFunc name
      else
        match ev.Value with
        | some v => .ok v
        | none => .error (getEnvVariableValueRequiredError ev.Variable)
    | none =>
      match ev.Value with
      | some v => .ok v
      | none => .error (getEnvVariableValueRequiredError ev.Variable)

/-- `EnvInt`: a literal `int64` or an environment reference. -/
structure EnvInt where
  Value : Option Int
  Variable : Option GoStr
  deriving DecidableEq

/-- `EnvInt.IsZero`. -/
def EnvInt.IsZero (ev : EnvInt) : Bool :=
  decide (ev.Variable = none ∨ ev.Variable = some []) && ev.Value.isNone

/-- `EnvInt.Get`: zero check, then `os.Getenv` (no definedness probe);
a non-empty raw value is parsed with `strconv.ParseInt(·, 10, 64)`;
otherwise the literal; otherwise the variable-value-required error. -/
def EnvInt.Get (ev : EnvInt) (env : Env) : Except GoErr Int :=
  if ev.IsZero then .error .valueRequired
  else
    let rawValue : GoStr :=
      match ev.Variable with
      | some name => if name ≠ [] then osGetenv env name else []
      | none => []
    if rawValue ≠ [] then
      match parseInt64 rawValue with
      | some v => .ok v
      | none => .error (.numError rawValue)
    else
      match ev.Value with
      | some v => .ok v
      | none => .error (getEnvVariableValueRequiredError ev.Variable)

/-- `EnvInt.GetOrDefault`: `Get`, substituting the default only for the
`ErrEnvironmentVariableValueRequired` error. -/
def EnvInt.GetOrDefault (ev : EnvInt) (defaultValue : Int) (env : Env) :
    Except GoErr Int :=
  match ev.Get env with
  | .error err =>
    if err.isVariableValueRequired then .ok defaultValue else .error err
  | .ok result => .ok result

/-- `EnvInt.GetCustom`: like `Get` with the supplied source; a source
error propagates; a non-empty raw value is parsed; an empty raw value
falls back to the literal. -/
def EnvInt.GetCustom (ev : EnvInt) (getFunc : GetEnvFunc) :
    Except GoErr Int :=
  if ev.IsZero then .error .valueRequired
  else
    match ev.Variable with
    | some name =>
      if name ≠ [] then
        match getFunc name with
        | .error err => .error err
        | .ok rawValue =>
          if rawValue ≠ [] then
            match parseInt64 rawValue with
            | some v => .ok v
            | none => .error (.numError rawValue)
          else
            match ev.Value with
            | some v => .ok v
            | none => .error (getEnvVariableValueRequiredError ev.Variable)
      else
        match ev.Value with
        | some v => .ok v
        | none => .error (getEnvVariableValueRequiredError ev.Variable)
    | none =>
      match ev.Value with
      | some v => .ok v
      | none => .error (getEnvVariableValueRequiredError ev.Variable)

/-- `EnvBool`: a literal boolean or an environment reference. -/
structure EnvBool where
  Value : Option Bool
  Variable : Option GoStr
  deriving DecidableEq

/-- `EnvBool.IsZero`. -/
def EnvBool.IsZero (ev : EnvBool) : Bool :=
  decide (ev.Variable = none ∨ ev.Variable = some []) && ev.Value.isNone

/-- `EnvBool.Get`: zero check, `os.Getenv`, `strconv.ParseBool` on a
non-empty raw value, literal fallback, variable-value-required error. -/
def EnvBool.Get (ev : EnvBool) (env : Env) : Except GoErr Bool :=
  if ev.IsZero then .error .valueRequired
  else
    let rawValue : GoStr :=
      match ev.Variable with
      | some name => if name ≠ [] then osGetenv env name else []
      | none => []
    if rawValue ≠ [] then
      match parseBoolGo rawValue with
      | some v => .ok v
      | none => .error (.numError rawValue)
    else
      match ev.Value with
      | some v => .ok v
      | none => .error (getEnvVariableValueRequiredError ev.Variable)

/-- `EnvBool.GetOrDefault`: `Get`, substituting the default only for
the `ErrEnvironmentVariableValueRequired` error. -/
def EnvBool.GetOrDefault (ev : EnvBool) (defaultValue : Bool) (env : Env) :
    Except GoErr Bool :=
  match ev.Get env with
  | .error err =>
    if err.isVariableValueRequired then .ok defaultValue else .error err
  | .ok result => .ok result

/-- `EnvBool.GetCustom`: like `Get` with the supplied source. -/
def EnvBool.GetCustom (ev : EnvBool) (getFunc : GetEnvFunc) :
    Except GoErr Bool :=
  if ev.IsZero then .error .valueRequired
  else
    match ev.Variable with
    | some name =>
      if name ≠ [] then
        match getFunc name with
        | .error err => .error err
        | .ok rawValue =>
          if rawValue ≠ [] then
            match parseBoolGo rawValue with
            | some v => .ok v
            | none => .error (.numError rawValue)
          else
            match ev.Value with
            | some v => .ok v
            | none => .error (getEnvVariableValueRequiredError ev.Variable)
      else
        match ev.Value with
        | some v => .ok v
        | none => .error (getEnvVariableValueRequiredError ev.Variable)
    | none =>
      match ev.Value with
      | some v => .ok v
      | none => .error (getEnvVariableValueRequiredError ev.Variable)

/-- `EnvFloat`: a literal `float64` (modelled as `Rat`) or an
environment reference. -/
structure EnvFloat where
  Value : Option Rat
  Variable : Option GoStr
  deriving DecidableEq

/-- `EnvFloat.IsZero`. -/
def EnvFloat.IsZero (ev : EnvFloat) : Bool :=
  decide (ev.Variable = none ∨ ev.Variable = some []) && ev.Value.isNone

/-- `EnvFloat.Get`: zero check, `os.Getenv`, `strconv.ParseFloat` on a
non-empty raw value, literal fallback, variable-value-required error. -/
def EnvFloat.Get (ev : EnvFloat) (env : Env) : Except GoErr Rat :=
  if ev.IsZero then .error .valueRequired
  else
    let rawValue : GoStr :=
      match ev.Variable with
      | some name => if name ≠ [] then osGetenv env name else []
      | none => []
    if rawValue ≠ [] then
      match parseFloat64 rawValue with
      | some v => .ok v
      | none => .error (.numError rawValue)
    else
      match ev.Value with
      | some v => .ok v
      | none => .error (getEnvVariableValueRequiredError ev.Variable)

/-- `EnvFloat.GetOrDefault`: `Get`, substituting the default only for
the `ErrEnvironmentVariableValueRequired` error. -/
def EnvFloat.GetOrDefault (ev : EnvFloat) (defaultValue : Rat) (env : Env) :
    Except GoErr Rat :=
  match ev.Get env with
  | .error err =>
    if err.isVariableValueRequired then .ok defaultValue else .error err
  | .ok result => .ok result

/-- `EnvFloat.GetCustom`: like `Get` with the supplied source. -/
def EnvFloat.GetCustom (ev : EnvFloat) (getFunc : GetEnvFunc) :
    Except GoErr Rat :=
  if ev.IsZero then .error .valueRequired
  else
    match ev.Variable with
    | some name =>
      if name ≠ [] then
        match getFunc name with
        | .error err => .error err
        | .ok rawValue =>
          if rawValue ≠ [] then
            match parseFloat64 rawValue with
            | some v => .ok v
            | none => .error (.numError rawValue)
          else
            match ev.Value with
            | some v => .ok v
            | none => .error (getEnvVariableValueRequiredError ev.Variable)
      else
        match ev.Value with
        | some v => .ok v
        | none => .error (getEnvVariableValueRequiredError ev.Variable)
    | none =>
      match ev.Value with
      | some v => .ok v
      | none => .error (getEnvVariableValueRequiredError ev.Variable)

/-! ## Slice typed values -/

/-- `EnvStringSlice`: a literal string slice or an environment
reference. -/
structure EnvStringSlice where
  Value : Option (List GoStr)
  Variable : Option GoStr
  deriving DecidableEq

/-- `EnvStringSlice.IsZero`. -/
def EnvStringSlice.IsZero (ev : EnvStringSlice) : Bool :=
  decide (ev.Variable = none ∨ ev.Variable = some []) && ev.Value.isNone

/-- `EnvStringSlice.Equal`: `slices.Equal` on the literals (nil equals
empty), then equality of the variable fields. -/
def EnvStringSlice.Equal (ev target : EnvStringSlice) : Bool :=
  goSlicesEqual ev.Value target.Value &&
    decide (ev.Variable = target.Variable)

/-- `EnvStringSlice.Get`: zero check, `os.LookupEnv`, comma split of a
non-empty raw value, literal fallback, empty slice when the variable was
defined, variable-value-required error. -/
def EnvStringSlice.Get (ev : EnvStringSlice) (env : Env) :
    Except GoErr (List GoStr) :=
  if ev.IsZero then .error .valueRequired
  else
    let probe : GoStr × Bool :=
      match ev.Variable with
      | some name => if name ≠ [] then osLookupEnv env name else ([], false)
      | none => ([], false)
    let value := probe.1
    let envExisted := probe.2
    if value ≠ [] then .ok (ParseStringSliceFromString value)
    else
      match ev.Value with
      | some v => .ok v
      | none =>
        if envExisted then .ok []
        else .error (getEnvVariableValueRequiredError ev.Variable)

/-- `EnvStringSlice.GetCustom`: like `Get` with the supplied source (no
definedness probe: an empty raw value with no literal is the
variable-value-required error). -/
def EnvStringSlice.GetCustom (ev : EnvStringSlice) (getFunc : GetEnvFunc) :
    Except GoErr (List GoStr) :=
  if ev.IsZero then .error .valueRequired
  else
    match ev.Variable with
    | some name =>
      if name ≠ [] then
        match getFunc name with
        | .error err => .error err
        | .ok value =>
          if value ≠ [] then .ok (ParseStringSliceFromString value)
          else
            match ev.Value with
            | some v => .ok v
            | none => .error (getEnvVariableValueRequiredError ev.Variable)
      else
        match ev.Value with
        | some v => .ok v
        | none => .error (getEnvVariableValueRequiredError ev.Variable)
    | none =>
      match ev.Value with
      | some v => .ok v
      | none => .error (getEnvVariableValueRequiredError ev.Variable)

/-- `EnvIntSlice`: a literal `[]int64` or an environment reference. -/
structure EnvIntSlice where
  Value : Option (List Int)
  Variable : Option GoStr
  deriving DecidableEq

/-- `EnvIntSlice.IsZero`. -/
def EnvIntSlice.IsZero (ev : EnvIntSlice) : Bool :=
  decide (ev.Variable = none ∨ ev.Variable = some []) && ev.Value.isNone

/-- `EnvIntSlice.Equal`. -/
def EnvIntSlice.Equal (ev target : EnvIntSlice) : Bool :=
  goSlicesEqual ev.Value target.Value &&
    decide (ev.Variable = target.Variable)

/-- `EnvIntSlice.Get`: zero check, `os.LookupEnv`, integer slice parse
(`T = int64`) of a non-empty raw value with the error text said to name
the variable, literal fallback, empty slice when the variable was
defined, variable-value-required error. -/
def EnvIntSlice.Get (ev : EnvIntSlice) (env : Env) :
    Except GoErr (List Int) :=
  if ev.IsZero then .error .valueRequired
  else
    let probe : GoStr × Bool :=
      match ev.Variable with
      | some name => if name ≠ [] then osLookupEnv env name else ([], false)
      | none => ([], false)
    let value := probe.1
    let envExisted := probe.2
    if value ≠ [] then
      parseIntSliceFromStringWithErrorPrefix 64 true value
        (gs "failed to parse " ++ (ev.Variable.getD []) ++ gs ": ")
    else
      match ev.Value with
      | some v => .ok v
      | none =>
        if envExisted then .ok []
        else .error (getEnvVariableValueRequiredError ev.Variable)

/-- `EnvIntSlice.GetCustom`: like `Get` with the supplied source. -/
def EnvIntSlice.GetCustom (ev : EnvIntSlice) (getFunc : GetEnvFunc) :
    Except GoErr (List Int) :=
  if ev.IsZero then .error .valueRequired
  else
    match ev.Variable with
    | some name =>
      if name ≠ [] then
        match getFunc name with
        | .error err => .error err
        | .ok value =>
          if value ≠ [] then
            parseIntSliceFromStringWithErrorPrefix 64 true value
              (gs "failed to parse " ++ name ++ gs ": ")
          else
            match ev.Value with
            | some v => .ok v
            | none => .error (getEnvVariableValueRequiredError ev.Variable)
      else
        match ev.Value with
        | some v => .ok v
        | none => .error (getEnvVariableValueRequiredError ev.Variable)
    | none =>
      match ev.Value with
      | some v => .ok v
      | none => .error (getEnvVariableValueRequiredError ev.Variable)

/-- `EnvFloatSlice`: a literal `[]float64` or an environment
reference. -/
structure EnvFloatSlice where
  Value : Option (List Rat)
  Variable : Option GoStr
  deriving DecidableEq

/-- `EnvFloatSlice.IsZero`. -/
def EnvFloatSlice.IsZero (ev : EnvFloatSlice) : Bool :=
  decide (ev.Variable = none ∨ ev.Variable = some []) && ev.Value.isNone

/-- `EnvFloatSlice.Equal`. -/
def EnvFloatSlice.Equal (ev target : EnvFloatSlice) : Bool :=
  goSlicesEqual ev.Value target.Value &&
    decide (ev.Variable = target.Variable)

/-- `EnvFloatSlice.Get`. -/
def EnvFloatSlice.Get (ev : EnvFloatSlice) (env : Env) :
    Except GoErr (List Rat) :=
  if ev.IsZero then .error .valueRequired
  else
    let probe : GoStr × Bool :=
      match ev.Variable with
      | some name => if name ≠ [] then osLookupEnv env name else ([], false)
      | none => ([], false)
    let value := probe.1
    let envExisted := probe.2
    if value ≠ [] then
      parseFloatSliceFromStringWithErrorPrefix value
        (gs "failed to parse " ++ (ev.Variable.getD []) ++ gs ": ")
    else
      match ev.Value with
      | some v => .ok v
      | none =>
        if envExisted then .ok []
        else .error (getEnvVariableValueRequiredError ev.Variable)

/-- `EnvFloatSlice.GetCustom`. -/
def EnvFloatSlice.GetCustom (ev : EnvFloatSlice) (getFunc : GetEnvFunc) :
    Except GoErr (List Rat) :=
  if ev.IsZero then .error .valueRequired
  else
    match ev.Variable with
    | some name =>
      if name ≠ [] then
        match getFunc name with
        | .error err => .error err
        | .ok value =>
          if value ≠ [] then
            parseFloatSliceFromStringWithErrorPrefix value
              (gs "failed to parse " ++ name ++ gs ": ")
          else
            match ev.Value with
            | some v => .ok v
            | none => .error (getEnvVariableValueRequiredError ev.Variable)
      else
        match ev.Value with
        | some v => .ok v
        | none => .error (getEnvVariableValueRequiredError ev.Variable)
    | none =>
      match ev.Value with
      | some v => .ok v
      | none => .error (getEnvVariableValueRequiredError ev.Variable)

/-- `EnvBoolSlice`: a literal `[]bool` or an environment reference. -/
structure EnvBoolSlice where
  Value : Option (List Bool)
  Variable : Option GoStr
  deriving DecidableEq

/-- `EnvBoolSlice.IsZero`. -/
def EnvBoolSlice.IsZero (ev : EnvBoolSlice) : Bool :=
  decide (ev.Variable = none ∨ ev.Variable = some []) && ev.Value.isNone

/-- `EnvBoolSlice.Equal`. -/
def EnvBoolSlice.Equal (ev target : EnvBoolSlice) : Bool :=
  goSlicesEqual ev.Value target.Value &&
    decide (ev.Variable = target.Variable)

/-- `EnvBoolSlice.Get`. -/
def EnvBoolSlice.Get (ev : EnvBoolSlice) (env : Env) :
    Except GoErr (List Bool) :=
  if ev.IsZero then .error .valueRequired
  else
    let probe : GoStr × Bool :=
      match ev.Variable with
      | some name => if name ≠ [] then osLookupEnv env name else ([], false)
      | none => ([], false)
    let value := probe.1
    let envExisted := probe.2
    if value ≠ [] then
      parseBoolSliceFromStringWithErrorPrefix value
        (gs "failed to parse " ++ (ev.Variable.getD []) ++ gs ": ")
    else
      match ev.Value with
      | some v => .ok v
      | none =>
        if envExisted then .ok []
        else .error (getEnvVariableValueRequiredError ev.Variable)

/-- `EnvBoolSlice.GetCustom`. -/
def EnvBoolSlice.GetCustom (ev : EnvBoolSlice) (getFunc : GetEnvFunc) :
    Except GoErr (List Bool) :=
  if ev.IsZero then .error .valueRequired
  else
    match ev.Variable with
    | some name =>
      if name ≠ [] then
        match getFunc name with
        | .error err => .error err
        | .ok value =>
          if value ≠ [] then
            parseBoolSliceFromStringWithErrorPrefix value
              (gs "failed to parse " ++ name ++ gs ": ")
          else
            match ev.Value with
            | some v => .ok v
            | none => .error (getEnvVariableValueRequiredError ev.Variable)
      else
        match ev.Value with
        | some v => .ok v
        | none => .error (getEnvVariableValueRequiredError ev.Variable)
    | none =>
      match ev.Value with
      | some v => .ok v
      | none => .error (getEnvVariableValueRequiredError ev.Variable)

/-! ## Map typed values

The map resolvers perform no zero check: with no usable variable value
they return the literal map field as is (possibly nil) with a nil
error. -/

/-- `EnvMapString`: a literal `map[string]string` or an environment
reference. -/
structure EnvMapString where
  Value : Option (List (GoStr × GoStr))
  Variable : Option GoStr
  deriving DecidableEq

/-- `EnvMapString.IsZero`. -/
def EnvMapString.IsZero (ev : EnvMapString) : Bool :=
  decide (ev.Variable = none ∨ ev.Variable = some []) && ev.Value.isNone

/-- `EnvMapString.Equal`: equality of the variable fields, then nil
literals equal only to nil and non-nil literals compared with
`maps.Equal`. -/
def EnvMapString.Equal (ev target : EnvMapString) : Bool :=
  if ¬ (ev.Variable = target.Variable) then false
  else
    match ev.Value, target.Value with
    | none, none => true
    | some a, some b => goMapEqual a b
    | _, _ => false

/-- `EnvMapString.Get`: `os.Getenv` when the variable name is present
and non-empty, map parse of a non-empty raw value, otherwise the
literal field as is (no zero check, no definedness probe). -/
def EnvMapString.Get (ev : EnvMapString) (env : Env) :
    Except GoErr (Option (List (GoStr × GoStr))) :=
  match ev.Variable with
  | some name =>
    if name ≠ [] then
      let rawValue := osGetenv env name
      if rawValue ≠ [] then
        match ParseStringMapFromString rawValue with
        | .ok m => .ok (some m)
        | .error e => .error e
      else .ok ev.Value
    else .ok ev.Value
  | none => .ok ev.Value

/-- `EnvMapString.GetCustom`: like `Get` with the supplied source. -/
def EnvMapString.GetCustom (ev : EnvMapString) (getFunc : GetEnvFunc) :
    Except GoErr (Option (List (GoStr × GoStr))) :=
  match ev.Variable with
  | some name =>
    if name ≠ [] then
      match getFunc name with
      | .error err => .error err
      | .ok rawValue =>
        if rawValue ≠ [] then
          match ParseStringMapFromString rawValue with
          | .ok m => .ok (some m)
          | .error e => .error e
        else .ok ev.Value
    else .ok ev.Value
  | none => .ok ev.Value

/-- `EnvMapInt`: a literal `map[string]int64` or an environment
reference. -/
structure EnvMapInt where
  Value : Option (List (GoStr × Int))
  Variable : Option GoStr
  deriving DecidableEq

/-- `EnvMapInt.IsZero`. -/
def EnvMapInt.IsZero (ev : EnvMapInt) : Bool :=
  decide (ev.Variable = none ∨ ev.Variable = some []) && ev.Value.isNone

/-- `EnvMapInt.Equal`. -/
def EnvMapInt.Equal (ev target : EnvMapInt) : Bool :=
  if ¬ (ev.Variable = target.Variable) then false
  else
    match ev.Value, target.Value with
    | none, none => true
    | some a, some b => goMapEqual a b
    | _, _ => false

/-- `EnvMapInt.Get` (`T = int64`). -/
def EnvMapInt.Get (ev : EnvMapInt) (env : Env) :
    Except GoErr (Option (List (GoStr × Int))) :=
  match ev.Variable with
  | some name =>
    if name ≠ [] then
      let rawValue := osGetenv env name
      if rawValue ≠ [] then
        match ParseIntegerMapFromString 64 true rawValue with
        | .ok m => .ok (some m)
        | .error e => .error e
      else .ok ev.Value
    else .ok ev.Value
  | none => .ok ev.Value

/-- `EnvMapInt.GetCustom`. -/
def EnvMapInt.GetCustom (ev : EnvMapInt) (getFunc : GetEnvFunc) :
    Except GoErr (Option (List (GoStr × Int))) :=
  match ev.Variable with
  | some name =>
    if name ≠ [] then
      match getFunc name with
      | .error err => .error err
      | .ok rawValue =>
        if rawValue ≠ [] then
          match ParseIntegerMapFromString 64 true rawValue with
          | .ok m => .ok (some m)
          | .error e => .error e
        else .ok ev.Value
    else .ok ev.Value
  | none => .ok ev.Value

/-- `EnvMapFloat`: a literal `map[string]float64` or an environment
reference. -/
structure EnvMapFloat where
  Value : Option (List (GoStr × Rat))
  Variable : Option GoStr
  deriving DecidableEq

/-- `EnvMapFloat.IsZero`. -/
def EnvMapFloat.IsZero (ev : EnvMapFloat) : Bool :=
  decide (ev.Variable = none ∨ ev.Variable = some []) && ev.Value.isNone

/-- `EnvMapFloat.Equal`. -/
def EnvMapFloat.Equal (ev target : EnvMapFloat) : Bool :=
  if ¬ (ev.Variable = target.Variable) then false
  else
    match ev.Value, target.Value with
    | none, none => true
    | some a, some b => goMapEqual a b
    | _, _ => false

/-- `EnvMapFloat.Get`. -/
def EnvMapFloat.Get (ev : EnvMapFloat) (env : Env) :
    Except GoErr (Option (List (GoStr × Rat))) :=
  match ev.Variable with
  | some name =>
    if name ≠ [] then
      let rawValue := osGetenv env name
      if rawValue ≠ [] then
        match ParseFloatMapFromString rawValue with
        | .ok m => .ok (some m)
        | .error e => .error e
      else .ok ev.Value
    else .ok ev.Value
  | none => .ok ev.Value

/-- `EnvMapFloat.GetCustom`. -/
def EnvMapFloat.GetCustom (ev : EnvMapFloat) (getFunc : GetEnvFunc) :
    Except GoErr (Option (List (GoStr × Rat))) :=
  match ev.Variable with
  | some name =>
    if name ≠ [] then
      match getFunc name with
      | .error err => .error err
      | .ok rawValue =>
        if rawValue ≠ [] then
          match ParseFloatMapFromString rawValue with
          | .ok m => .ok (some m)
          | .error e => .error e
        else .ok ev.Value
    else .ok ev.Value
  | none => .ok ev.Value

/-- `EnvMapBool`: a literal `map[string]bool` or an environment
reference. -/
structure EnvMapBool where
  Value : Option (List (GoStr × Bool))
  Variable : Option GoStr
  deriving DecidableEq

/-- `EnvMapBool.IsZero`. -/
def EnvMapBool.IsZero (ev : EnvMapBool) : Bool :=
  decide (ev.Variable = none ∨ ev.Variable = some []) && ev.Value.isNone

/-- `EnvMapBool.Equal`. -/
def EnvMapBool.Equal (ev target : EnvMapBool) : Bool :=
  if ¬ (ev.Variable = target.Variable) then false
  else
    match ev.Value, target.Value with
    | none, none => true
    | some a, some b => goMapEqual a b
    | _, _ => false

/-- `EnvMapBool.Get`. -/
def EnvMapBool.Get (ev : EnvMapBool) (env : Env) :
    Except GoErr (Option (List (GoStr × Bool))) :=
  match ev.Variable with
  | some name =>
    if name ≠ [] then
      let rawValue := osGetenv env name
      if rawValue ≠ [] then
        match ParseBoolMapFromString rawValue with
        | .ok m => .ok (some m)
        | .error e => .error e
      else .ok ev.Value
    else .ok ev.Value
  | none => .ok ev.Value

/-- `EnvMapBool.GetCustom`. -/
def EnvMapBool.GetCustom (ev : EnvMapBool) (getFunc : GetEnvFunc) :
    Except GoErr (Option (List (GoStr × Bool))) :=
  match ev.Variable with
  | some name =>
    if name ≠ [] then
      match getFunc name with
      | .error err => .error err
      | .ok rawValue =>
        if rawValue ≠ [] then
          match ParseBoolMapFromString rawValue with
          | .ok m => .ok (some m)
          | .error e => .error e
        else .ok ev.Value
    else .ok ev.Value
  | none => .ok ev.Value

/-! ## The untyped (Any) value -/

/-- The domain of Go `any` values produced by literals and JSON
decoding: structurally comparable JSON-like data. -/
inductive GoAny where
  | str (s : GoStr)
  | num (q : Rat)
  | boolean (b : Bool)
  | arr (elems : List GoAny)
  | obj (fields : List (GoStr × GoAny))

/-- `EnvAny`: an arbitrary literal value (`none` = Go nil) or an
environment reference. -/
structure EnvAny where
  Value : Option GoAny
  Variable : Option GoStr

/-- `EnvAny.IsZero`. -/
def EnvAny.IsZero (ev : EnvAny) : Bool :=
  decide (ev.Variable = none ∨ ev.Variable = some []) && ev.Value.isNone

/-- `EnvAny.Get`: `os.Getenv` when the variable name is present and
non-empty, `json.Unmarshal` of a non-empty raw value, otherwise the
literal field as is (no zero check).  The general-purpose structured
decoder (`encoding/json`, an external library) is passed as the
`decode` parameter; a `none` result models a JSON `null`. -/
def EnvAny.Get (decode : GoStr → Except GoErr (Option GoAny))
    (ev : EnvAny) (env : Env) : Except GoErr (Option GoAny) :=
  match ev.Variable with
  | some name =>
    if name ≠ [] then
      let rawValue := osGetenv env name
      if rawValue ≠ [] then decode rawValue
      else .ok ev.Value
    else .ok ev.Value
  | none => .ok ev.Value

/-- `EnvAny.GetCustom`: like `Get` with the supplied source. -/
def EnvAny.GetCustom (decode : GoStr → Except GoErr (Option GoAny))
    (ev : EnvAny) (getFunc : GetEnvFunc) : Except GoErr (Option GoAny) :=
  match ev.Variable with
  | some name =>
    if name ≠ [] then
      match getFunc name with
      | .error err => .error err
      | .ok rawValue =>
        if rawValue ≠ [] then decode rawValue
        else .ok ev.Value
    else .ok ev.Value
  | none => .ok ev.Value

/-! ## Concrete environments and sources for evaluation -/

/-- The environment in which every variable is undefined. -/
def envUndef : Env := fun _ => none

/-- The environment defined by an explicit association list. -/
def envDefs (entries : List (GoStr × GoStr)) : Env :=
  fun n => goLookup n entries

/-! ## Generic facts about the model -/

theorem splitOn_ne_nil (c : Char) (s : GoStr) : splitOn c s ≠ [] := by
  cases s with
  | nil => simp [splitOn]
  | cons x xs =>
    rw [splitOn]
    rcases h : splitOn c xs with _ | ⟨y, ys⟩
    · simp
    · by_cases hx : x = c <;> simp [hx]

theorem goLookup_mem {α : Type} {k : GoStr} {v : α}
    {m : List (GoStr × α)} (h : goLookup k m = some v) : (k, v) ∈ m := by
  induction m with
  | nil => simp [goLookup] at h
  | cons kv rest ih =>
    obtain ⟨k₁, v₁⟩ := kv
    rw [goLookup] at h
    by_cases hk : k₁ = k
    · simp [hk] at h
      simp [hk, h]
    · simp [hk] at h
      exact List.mem_cons_of_mem _ (ih h)

theorem goLookup_of_mem {α : Type} {k : GoStr} {v : α}
    {m : List (GoStr × α)} (wf : GoMapWF m) (h : (k, v) ∈ m) :
    goLookup k m = some v := by
  induction m with
  | nil => simp at h
  | cons kv rest ih =>
    obtain ⟨k₁, v₁⟩ := kv
    rw [GoMapWF, List.map_cons, List.nodup_cons] at wf
    rcases List.mem_cons.mp h with h₁ | h₁
    · injection h₁ with hk hv
      subst hk
      subst hv
      simp [goLookup]
    · have hk : k₁ ≠ k := by
        intro hc
        subst hc
        have h₂ := List.mem_map_of_mem Prod.fst h₁
        exact wf.1 h₂
      simp only [goLookup, hk, if_false]
      exact ih wf.2 h₁

theorem goLookup_isSome_iff {α : Type} {k : GoStr}
    {m : List (GoStr × α)} :
    (∃ v, goLookup k m = some v) ↔ k ∈ m.map Prod.fst := by
  induction m with
  | nil =>
    constructor
    · rintro ⟨v, hv⟩
      exact Option.noConfusion hv
    · intro hx
      exact absurd hx (List.not_mem_nil k)
  | cons kv rest ih =>
    obtain ⟨k₁, v₁⟩ := kv
    rw [List.map_cons, List.mem_cons]
    by_cases hk : k₁ = k
    · subst hk
      constructor
      · intro _
        exact Or.inl rfl
      · intro _
        refine ⟨v₁, ?_⟩
        simp [goLookup]
    · constructor
      · rintro ⟨v, hv⟩
        simp only [goLookup, hk, if_false] at hv
        exact Or.inr (ih.mp ⟨v, hv⟩)
      · rintro (h | h)
        · exact absurd h.symm hk
        · obtain ⟨v, hv⟩ := ih.mpr h
          refine ⟨v, ?_⟩
          simp only [goLookup, hk, if_false]
          exact hv

theorem goMapEqual_true_iff {α : Type} [DecidableEq α]
    {m₁ m₂ : List (GoStr × α)} :
    goMapEqual m₁ m₂ = true ↔
      m₁.length = m₂.length ∧ ∀ kv ∈ m₁, goLookup kv.1 m₂ = some kv.2 := by
  simp only [goMapEqual, Bool.and_eq_true, decide_eq_true_eq, List.all_eq_true]

theorem goMapEqual_refl {α : Type} [DecidableEq α]
    {m : List (GoStr × α)} (wf : GoMapWF m) : goMapEqual m m = true := by
  rw [goMapEqual_true_iff]
  exact ⟨rfl, fun kv hkv => goLookup_of_mem wf hkv⟩

theorem goMapEqual_symm_aux {α : Type} [DecidableEq α]
    {m₁ m₂ : List (GoStr × α)} (wf₁ : GoMapWF m₁) (wf₂ : GoMapWF m₂)
    (h : goMapEqual m₁ m₂ = true) : goMapEqual m₂ m₁ = true := by
  rw [goMapEqual_true_iff] at h ⊢
  obtain ⟨hlen, hmem⟩ := h
  have hkeys : (m₁.map Prod.fst).toFinset = (m₂.map Prod.fst).toFinset := by
    apply Finset.eq_of_subset_of_card_le
    · intro k hk
      rw [List.mem_toFinset] at hk ⊢
      rw [← goLookup_isSome_iff] at hk ⊢
      obtain ⟨v, hv⟩ := hk
      exact ⟨v, hmem _ (goLookup_mem hv)⟩
    · rw [List.toFinset_card_of_nodup wf₁, List.toFinset_card_of_nodup wf₂]
      simp [hlen]
  refine ⟨hlen.symm, fun kv hkv => ?_⟩
  obtain ⟨k, v⟩ := kv
  have hk₂ : k ∈ m₂.map Prod.fst := List.mem_map_of_mem Prod.fst hkv
  have hk₁ : k ∈ m₁.map Prod.fst := by
    have hf : k ∈ (m₂.map Prod.fst).toFinset := List.mem_toFinset.mpr hk₂
    rw [← hkeys] at hf
    exact List.mem_toFinset.mp hf
  obtain ⟨v₁, hv₁⟩ := goLookup_isSome_iff.mpr hk₁
  have hv₁₂ : goLookup k m₂ = some v₁ := hmem _ (goLookup_mem hv₁)
  have hv₂ : goLookup k m₂ = some v := goLookup_of_mem wf₂ hkv
  have : v₁ = v := by
    rw [hv₁₂] at hv₂
    exact Option.some.inj hv₂
  exact this ▸ hv₁

theorem goMapEqual_symm {α : Type} [DecidableEq α]
    {m₁ m₂ : List (GoStr × α)} (wf₁ : GoMapWF m₁) (wf₂ : GoMapWF m₂) :
    goMapEqual m₁ m₂ = goMapEqual m₂ m₁ := by
  rcases h₁ : goMapEqual m₁ m₂ with _ | _
  · rcases h₂ : goMapEqual m₂ m₁ with _ | _
    · rfl
    · rw [← h₁, goMapEqual_symm_aux wf₂ wf₁ h₂]
  · rw [goMapEqual_symm_aux wf₁ wf₂ h₁]

theorem parseInt64_range {s : GoStr} {v : Int} (h : parseInt64 s = some v) :
    -(2 ^ 63) ≤ v ∧ v ≤ 2 ^ 63 - 1 := by
  rcases s with _ | ⟨c, rest⟩
  · exact Option.noConfusion h
  · simp only [parseInt64] at h
    repeat' split at h
    all_goals try exact Option.noConfusion h
    all_goals obtain rfl := Option.some.inj h
    all_goals assumption

theorem intConv_id_of_range {v : Int} (h₁ : -(2 ^ 63) ≤ v)
    (h₂ : v ≤ 2 ^ 63 - 1) : intConv 64 true v = v := by
  simp only [intConv, if_true]
  norm_num
  split_ifs with hc <;> omega

/-- A raw map pair is well-formed when it splits on `=` into exactly two
parts with a non-empty key. -/
def goodPair (p : GoStr) : Bool :=
  decide ((splitOn '=' p).length = 2) &&
    decide ((splitOn '=' p).headD [] ≠ [])

/-- The first `=`-separated segment of a raw map pair (what
`ParseStringMapFromString` reports as the error hint; for a pair with no
`=` this is the whole pair). -/
def pairKey (p : GoStr) : GoStr :=
  (splitOn '=' p).headD []

theorem parseStringMapItems_ok_iff (items : List GoStr)
    (acc : List (GoStr × GoStr)) :
    (∃ m, parseStringMapItems acc items = .ok m) ↔
      ∀ p ∈ items, goodPair p = true := by
  induction items generalizing acc with
  | nil => simp [parseStringMapItems]
  | cons p rest ih =>
    constructor
    · rintro ⟨m, hm⟩
      intro q hq
      rw [parseStringMapItems] at hm
      split at hm
      · rename_i k v heq
        split at hm
        · exact Except.noConfusion hm
        · rename_i hk
          rcases List.mem_cons.mp hq with rfl | hq₁
          · simp [goodPair, heq, hk]
          · exact ((ih _).mp ⟨m, hm⟩) q hq₁
      · exact Except.noConfusion hm
      · exact Except.noConfusion hm
    · intro hall
      have hp := hall p (List.mem_cons_self p rest)
      rw [parseStringMapItems]
      split
      · rename_i k v heq
        have hk : k ≠ [] := by
          rw [goodPair, heq] at hp
          simpa using hp
        rw [if_neg hk]
        exact (ih _).mpr fun q hq => hall q (List.mem_cons_of_mem _ hq)
      · rename_i k tail hshape heq
        exfalso
        rw [goodPair, heq] at hp
        rcases tail with _ | ⟨a, t₂⟩
        · simp at hp
        · rcases t₂ with _ | _
          · exact hshape a rfl
          · simp at hp
      · rename_i heq
        exfalso
        rw [goodPair, heq] at hp
        simp at hp

theorem parseStringMapItems_error (items : List GoStr)
    (acc : List (GoStr × GoStr)) {e : GoErr}
    (h : parseStringMapItems acc items = .error e) :
    ∃ p ∈ items, goodPair p = false ∧
      e = NewParseEnvFailedError stringMapSyntaxMsg (pairKey p) := by
  induction items generalizing acc with
  | nil => exact Except.noConfusion h
  | cons p rest ih =>
    rw [parseStringMapItems] at h
    split at h
    · rename_i k v heq
      split at h
      · rename_i hk
        obtain rfl := (Except.error.inj h).symm
        refine ⟨p, List.mem_cons_self p rest, ?_, ?_⟩
        · simp [goodPair, heq, hk]
        · simp [pairKey, heq, hk]
      · obtain ⟨q, hq, hbad, he⟩ := ih _ h
        exact ⟨q, List.mem_cons_of_mem _ hq, hbad, he⟩
    · rename_i k tail hshape heq
      obtain rfl := (Except.error.inj h).symm
      refine ⟨p, List.mem_cons_self p rest, ?_, ?_⟩
      · rw [goodPair, heq]
        rcases tail with _ | ⟨a, tail₂⟩
        · simp
        · rcases tail₂ with _ | _
          · exact absurd rfl (hshape a)
          · simp
      · rw [pairKey, heq]
        rfl
    · rename_i heq
      obtain rfl := (Except.error.inj h).symm
      refine ⟨p, List.mem_cons_self p rest, ?_, ?_⟩
      · rw [goodPair, heq]
        simp
      · rw [pairKey, heq]
        rfl

/-- Go `strings.Join` with the given separator. -/
def goJoin (sep : GoStr) : List GoStr → GoStr
  | [] => []
  | [s] => s
  | s :: rest => s ++ sep ++ goJoin sep rest

theorem splitOn_not_mem {c : Char} {s : GoStr} (h : c ∉ s) :
    splitOn c s = [s] := by
  induction s with
  | nil => rfl
  | cons x xs ih =>
    have hx : x ≠ c := fun hc => h (hc ▸ List.mem_cons_self x xs)
    have hxs : c ∉ xs := fun hc => h (List.mem_cons_of_mem x hc)
    rw [splitOn, ih hxs]
    simp [hx]

theorem splitOn_append_cons {c : Char} {x t : GoStr} (h : c ∉ x) :
    splitOn c (x ++ c :: t) = x :: splitOn c t := by
  induction x with
  | nil =>
    rcases hsp : splitOn c t with _ | ⟨y, ys⟩
    · exact absurd hsp (splitOn_ne_nil c t)
    · simp [splitOn, hsp]
  | cons a as ih =>
    have ha : a ≠ c := fun hc => h (hc ▸ List.mem_cons_self a as)
    have has : c ∉ as := fun hc => h (List.mem_cons_of_mem a hc)
    rw [List.cons_append, splitOn, ih has]
    simp [ha]

theorem splitOn_goJoin {c : Char} {items : List GoStr}
    (hne : items ≠ []) (h : ∀ s ∈ items, c ∉ s) :
    splitOn c (goJoin [c] items) = items := by
  induction items with
  | nil => exact absurd rfl hne
  | cons x rest ih =>
    rcases rest with _ | ⟨y, ys⟩
    · exact splitOn_not_mem (h x (List.mem_cons_self x []))
    · rw [goJoin]
      have : x ++ [c] ++ goJoin [c] (y :: ys) =
          x ++ c :: goJoin [c] (y :: ys) := by
        rw [List.append_assoc]
        rfl
      rw [this, splitOn_append_cons (h x (List.mem_cons_self x (y :: ys))),
        ih (by simp) fun s hs => h s (List.mem_cons_of_mem x hs)]
      simp

theorem parseIntSliceItems_ok_of_forall₂ {p : GoStr} {items : List GoStr}
    {ns : List Int}
    (h : List.Forall₂ (fun s n => parseInt64 (trimSpace s) = some n)
      items ns) :
    ∀ idx, parseIntSliceItems 64 true p idx items = .ok ns := by
  induction h with
  | nil =>
    intro idx
    rfl
  | cons hsn hrest ih =>
    intro idx
    rw [parseIntSliceItems, hsn, ih (idx + 1)]
    have hr := parseInt64_range hsn
    simp [intConv_id_of_range hr.1 hr.2]

theorem parseFloatSliceItems_ok_of_forall₂ {p : GoStr}
    {items : List GoStr} {qs : List Rat}
    (h : List.Forall₂ (fun s q => parseFloat64 (trimSpace s) = some q)
      items qs) :
    ∀ idx, parseFloatSliceItems p idx items = .ok qs := by
  induction h with
  | nil =>
    intro idx
    rfl
  | cons hsq hrest ih =>
    intro idx
    rw [parseFloatSliceItems, hsq, ih (idx + 1)]

theorem parseBoolSliceItems_ok_of_forall₂ {p : GoStr}
    {items : List GoStr} {bs : List Bool}
    (h : List.Forall₂ (fun s b => parseBoolGo (trimSpace s) = some b)
      items bs) :
    ∀ idx, parseBoolSliceItems p idx items = .ok bs := by
  induction h with
  | nil =>
    intro idx
    rfl
  | cons hsb hrest ih =>
    intro idx
    rw [parseBoolSliceItems, hsb, ih (idx + 1)]

/-! ## Claim theorems -/

/-- C7: the integer parsers never silently truncate — refuted.
`ParseIntegerMapFromString` always parses with
`strconv.ParseInt(value, 10, 64)` and then applies the Go conversion
`T(intValue)`, which wraps.  At width 8 (signed, i.e. `T = int8`) the
input `"a=300"` — whose value 300 is out of range for `int8` — is
accepted and silently truncated to `44 = 300 mod 256` instead of being
rejected, contradicting the code's intent (the generic signature
advertises every width, and `strconv.ParseInt`'s bit-size argument
exists precisely to range-check) and the spec. -/
theorem c7_int8_silent_truncation :
    ParseIntegerMapFromString 8 true (gs "a=300") = .ok [(gs "a", 44)] ∧
    parseIntSliceFromStringWithErrorPrefix 8 true (gs "300") [] =
      .ok [44] := by
  constructor
  · decide
  · decide

/-- C10: for every TypedValue with a present literal and no variable
name, `Get` returns the literal unchanged and `GetCustom` returns the
literal for every source function, so the result is independent of the
supplied source (the source is never consulted).  Stated for all
thirteen variants. -/
theorem c10_literal_only_resolution :
    (∀ (v : GoStr) (env : Env) (f : GetEnvFunc),
      EnvString.Get ⟨some v, none⟩ env = .ok v ∧
      EnvString.GetCustom ⟨some v, none⟩ f = .ok v) ∧
    (∀ (v : Int) (env : Env) (f : GetEnvFunc),
      EnvInt.Get ⟨some v, none⟩ env = .ok v ∧
      EnvInt.GetCustom ⟨some v, none⟩ f = .ok v) ∧
    (∀ (v : Bool) (env : Env) (f : GetEnvFunc),
      EnvBool.Get ⟨some v, none⟩ env = .ok v ∧
      EnvBool.GetCustom ⟨some v, none⟩ f = .ok v) ∧
    (∀ (v : Rat) (env : Env) (f : GetEnvFunc),
      EnvFloat.Get ⟨some v, none⟩ env = .ok v ∧
      EnvFloat.GetCustom ⟨some v, none⟩ f = .ok v) ∧
    (∀ (v : List GoStr) (env : Env) (f : GetEnvFunc),
      EnvStringSlice.Get ⟨some v, none⟩ env = .ok v ∧
      EnvStringSlice.GetCustom ⟨some v, none⟩ f = .ok v) ∧
    (∀ (v : List Int) (env : Env) (f : GetEnvFunc),
      EnvIntSlice.Get ⟨some v, none⟩ env = .ok v ∧
      EnvIntSlice.GetCustom ⟨some v, none⟩ f = .ok v) ∧
    (∀ (v : List Rat) (env : Env) (f : GetEnvFunc),
      EnvFloatSlice.Get ⟨some v, none⟩ env = .ok v ∧
      EnvFloatSlice.GetCustom ⟨some v, none⟩ f = .ok v) ∧
    (∀ (v : List Bool) (env : Env) (f : GetEnvFunc),
      EnvBoolSlice.Get ⟨some v, none⟩ env = .ok v ∧
      EnvBoolSlice.GetCustom ⟨some v, none⟩ f = .ok v) ∧
    (∀ (v : List (GoStr × GoStr)) (env : Env) (f : GetEnvFunc),
      EnvMapString.Get ⟨some v, none⟩ env = .ok (some v) ∧
      EnvMapString.GetCustom ⟨some v, none⟩ f = .ok (some v)) ∧
    (∀ (v : List (GoStr × Int)) (env : Env) (f : GetEnvFunc),
      EnvMapInt.Get ⟨some v, none⟩ env = .ok (some v) ∧
      EnvMapInt.GetCustom ⟨some v, none⟩ f = .ok (some v)) ∧
    (∀ (v : List (GoStr × Rat)) (env : Env) (f : GetEnvFunc),
      EnvMapFloat.Get ⟨some v, none⟩ env = .ok (some v) ∧
      EnvMapFloat.GetCustom ⟨some v, none⟩ f = .ok (some v)) ∧
    (∀ (v : List (GoStr × Bool)) (env : Env) (f : GetEnvFunc),
      EnvMapBool.Get ⟨some v, none⟩ env = .ok (some v) ∧
      EnvMapBool.GetCustom ⟨some v, none⟩ f = .ok (some v)) ∧
    (∀ (decode : GoStr → Except GoErr (Option GoAny)) (v : GoAny)
        (env : Env) (f : GetEnvFunc),
      EnvAny.Get decode ⟨some v, none⟩ env = .ok (some v) ∧
      EnvAny.GetCustom decode ⟨some v, none⟩ f = .ok (some v)) :=
  ⟨fun _ _ _ => ⟨rfl, rfl⟩, fun _ _ _ => ⟨rfl, rfl⟩,
    fun _ _ _ => ⟨rfl, rfl⟩, fun _ _ _ => ⟨rfl, rfl⟩,
    fun _ _ _ => ⟨rfl, rfl⟩, fun _ _ _ => ⟨rfl, rfl⟩,
    fun _ _ _ => ⟨rfl, rfl⟩, fun _ _ _ => ⟨rfl, rfl⟩,
    fun _ _ _ => ⟨rfl, rfl⟩, fun _ _ _ => ⟨rfl, rfl⟩,
    fun _ _ _ => ⟨rfl, rfl⟩, fun _ _ _ => ⟨rfl, rfl⟩,
    fun _ _ _ _ => ⟨rfl, rfl⟩⟩

/-- C8 counterexample: the claim says that for the `Any` variant a
present-but-empty variable name is treated as an error case.  It is
not: at the concrete zero-literal value with `Variable = some ""`, both
`Get` and `GetCustom` succeed (returning the nil literal), for the
environment-backed path and for a custom source alike. -/
theorem c8_empty_name_not_error :
    EnvAny.Get (fun _ => .ok none) ⟨none, some []⟩ envUndef = .ok none ∧
    EnvAny.GetCustom (fun _ => .ok none) ⟨none, some []⟩
      (fun _ => .ok []) = .ok none :=
  ⟨rfl, rfl⟩

/-- C8 amended: for the `Any` variant an empty-string variable name
degrades to literal-only resolution — the literal (possibly nil) is
returned with no error by both `Get` and `GetCustom`, for every decoder
and source — exactly like the other variants (shown for `EnvString`
with a present literal). -/
theorem c8_empty_name_degrades_to_literal :
    (∀ (decode : GoStr → Except GoErr (Option GoAny)) (v : Option GoAny)
        (env : Env) (f : GetEnvFunc),
      EnvAny.Get decode ⟨v, some []⟩ env = .ok v ∧
      EnvAny.GetCustom decode ⟨v, some []⟩ f = .ok v) ∧
    (∀ (lit : GoStr) (env : Env) (f : GetEnvFunc),
      EnvString.Get ⟨some lit, some []⟩ env = .ok lit ∧
      EnvString.GetCustom ⟨some lit, some []⟩ f = .ok lit) :=
  ⟨fun _ _ _ _ => ⟨rfl, rfl⟩, fun _ _ _ => ⟨rfl, rfl⟩⟩

/-- C4 counterexample: the claim says `GetOrDefault` returns exactly
what `Get` returns whenever `Get` succeeds.  For `EnvString` it does
not: with the literal `""` (and no variable), `Get` succeeds with `""`
but `GetOrDefault "default"` returns `"default"`. -/
theorem c4_empty_string_replaced_by_default :
    EnvString.Get ⟨some [], none⟩ envUndef = .ok [] ∧
    EnvString.GetOrDefault ⟨some [], none⟩ (gs "default") envUndef =
      .ok (gs "default") ∧
    EnvString.GetOrDefault ⟨some [], none⟩ (gs "default") envUndef ≠
      .ok [] := by
  refine ⟨rfl, rfl, ?_⟩
  decide

/-- C4 amended: for the `int`, `bool` and `float` scalars,
`GetOrDefault(d)` is `Get()` with exactly the
`VariableValueRequired` outcome replaced by `d`; a success passes
through unchanged and every other error kind propagates unchanged.  For
`EnvString`, additionally a *successful empty-string* result is replaced
by `d`; non-empty successes pass through and the error handling is the
same.  (The slice, map and `Any` variants have no `GetOrDefault`.) -/
theorem c4_get_or_default_policy :
    (∀ (ev : EnvInt) (d : Int) (env : Env),
      (∀ v, ev.Get env = .ok v → ev.GetOrDefault d env = .ok v) ∧
      (∀ e, ev.Get env = .error e → e.isVariableValueRequired = true →
        ev.GetOrDefault d env = .ok d) ∧
      (∀ e, ev.Get env = .error e → e.isVariableValueRequired = false →
        ev.GetOrDefault d env = .error e)) ∧
    (∀ (ev : EnvBool) (d : Bool) (env : Env),
      (∀ v, ev.Get env = .ok v → ev.GetOrDefault d env = .ok v) ∧
      (∀ e, ev.Get env = .error e → e.isVariableValueRequired = true →
        ev.GetOrDefault d env = .ok d) ∧
      (∀ e, ev.Get env = .error e → e.isVariableValueRequired = false →
        ev.GetOrDefault d env = .error e)) ∧
    (∀ (ev : EnvFloat) (d : Rat) (env : Env),
      (∀ v, ev.Get env = .ok v → ev.GetOrDefault d env = .ok v) ∧
      (∀ e, ev.Get env = .error e → e.isVariableValueRequired = true →
        ev.GetOrDefault d env = .ok d) ∧
      (∀ e, ev.Get env = .error e → e.isVariableValueRequired = false →
        ev.GetOrDefault d env = .error e)) ∧
    (∀ (ev : EnvString) (d : GoStr) (env : Env),
      (∀ v, ev.Get env = .ok v → v ≠ [] → ev.GetOrDefault d env = .ok v) ∧
      (ev.Get env = .ok [] → ev.GetOrDefault d env = .ok d) ∧
      (∀ e, ev.Get env = .error e → e.isVariableValueRequired = true →
        ev.GetOrDefault d env = .ok d) ∧
      (∀ e, ev.Get env = .error e → e.isVariableValueRequired = false →
        ev.GetOrDefault d env = .error e)) := by
  refine ⟨fun ev d env => ⟨?_, ?_, ?_⟩, fun ev d env => ⟨?_, ?_, ?_⟩,
    fun ev d env => ⟨?_, ?_, ?_⟩, fun ev d env => ⟨?_, ?_, ?_, ?_⟩⟩
  · intro v h
    simp [EnvInt.GetOrDefault, h]
  · intro e h hv
    simp [EnvInt.GetOrDefault, h, hv]
  · intro e h hv
    simp [EnvInt.GetOrDefault, h, hv]
  · intro v h
    simp [EnvBool.GetOrDefault, h]
  · intro e h hv
    simp [EnvBool.GetOrDefault, h, hv]
  · intro e h hv
    simp [EnvBool.GetOrDefault, h, hv]
  · intro v h
    simp [EnvFloat.GetOrDefault, h]
  · intro e h hv
    simp [EnvFloat.GetOrDefault, h, hv]
  · intro e h hv
    simp [EnvFloat.GetOrDefault, h, hv]
  · intro v h hne
    simp [EnvString.GetOrDefault, h, hne]
  · intro h
    simp [EnvString.GetOrDefault, h]
  · intro e h hv
    simp [EnvString.GetOrDefault, h, hv]
  · intro e h hv
    simp [EnvString.GetOrDefault, h, hv]

/-- C4 witness: the policy evaluated at concrete inputs — a literal
success passes through for `int`/`bool`/`float` and non-empty `string`;
an undefined variable with no literal yields the default; the zero
value's `ValueRequired` error still propagates; the empty-string
success is replaced by the default for `EnvString`. -/
theorem c4_get_or_default_policy_witness :
    EnvInt.GetOrDefault ⟨some 5, none⟩ 7 envUndef = .ok 5 ∧
    EnvInt.GetOrDefault ⟨none, some (gs "M")⟩ 7 envUndef = .ok 7 ∧
    EnvInt.GetOrDefault ⟨none, none⟩ 7 envUndef = .error .valueRequired ∧
    EnvBool.GetOrDefault ⟨some true, none⟩ false envUndef = .ok true ∧
    EnvFloat.GetOrDefault ⟨some 1, none⟩ 2 envUndef = .ok 1 ∧
    EnvString.GetOrDefault ⟨some (gs "x"), none⟩ (gs "d") envUndef =
      .ok (gs "x") ∧
    EnvString.GetOrDefault ⟨some [], none⟩ (gs "d") envUndef =
      .ok (gs "d") :=
  ⟨(c4_get_or_default_policy.1 ⟨some 5, none⟩ 7 envUndef).1 5 rfl,
    (c4_get_or_default_policy.1 ⟨none, some (gs "M")⟩ 7 envUndef).2.1
      (.variableValueRequired (some (gs "M"))) rfl rfl,
    (c4_get_or_default_policy.1 ⟨none, none⟩ 7 envUndef).2.2
      .valueRequired rfl rfl,
    (c4_get_or_default_policy.2.1 ⟨some true, none⟩ false envUndef).1
      true rfl,
    (c4_get_or_default_policy.2.2.1 ⟨some 1, none⟩ 2 envUndef).1 1 rfl,
    (c4_get_or_default_policy.2.2.2 ⟨some (gs "x"), none⟩ (gs "d")
      envUndef).1 (gs "x") rfl (by decide),
    (c4_get_or_default_policy.2.2.2 ⟨some [], none⟩ (gs "d")
      envUndef).2.1 rfl⟩

/-- C1 counterexample: the claim says every map variant fails with
`ValueRequired` on the zero value.  The map resolvers have no zero
check: the zero `EnvMapString` (and likewise the other three map
variants) resolves to the nil literal with no error, as the package's
own tests expect. -/
theorem c1_zero_map_resolves_without_error :
    EnvMapString.IsZero ⟨none, none⟩ = true ∧
    EnvMapString.Get ⟨none, none⟩ envUndef = .ok none ∧
    EnvMapString.Get ⟨none, none⟩ envUndef ≠ .error .valueRequired ∧
    EnvMapInt.Get ⟨none, none⟩ envUndef = .ok none ∧
    EnvMapFloat.Get ⟨none, none⟩ envUndef = .ok none ∧
    EnvMapBool.Get ⟨none, none⟩ envUndef = .ok none := by
  refine ⟨rfl, rfl, ?_, rfl, rfl, rfl⟩
  decide

/-- C1 amended: on a zero TypedValue (variable absent-or-empty, literal
absent), `Get` fails with the `ValueRequired` error for the four scalar
and the four slice variants; the four map variants instead return the
nil literal with no error. -/
theorem c1_zero_value_policy :
    (∀ (ev : EnvString) (env : Env), ev.IsZero = true →
      ev.Get env = .error .valueRequired) ∧
    (∀ (ev : EnvInt) (env : Env), ev.IsZero = true →
      ev.Get env = .error .valueRequired) ∧
    (∀ (ev : EnvBool) (env : Env), ev.IsZero = true →
      ev.Get env = .error .valueRequired) ∧
    (∀ (ev : EnvFloat) (env : Env), ev.IsZero = true →
      ev.Get env = .error .valueRequired) ∧
    (∀ (ev : EnvStringSlice) (env : Env), ev.IsZero = true →
      ev.Get env = .error .valueRequired) ∧
    (∀ (ev : EnvIntSlice) (env : Env), ev.IsZero = true →
      ev.Get env = .error .valueRequired) ∧
    (∀ (ev : EnvFloatSlice) (env : Env), ev.IsZero = true →
      ev.Get env = .error .valueRequired) ∧
    (∀ (ev : EnvBoolSlice) (env : Env), ev.IsZero = true →
      ev.Get env = .error .valueRequired) ∧
    (∀ (ev : EnvMapString) (env : Env), ev.IsZero = true →
      ev.Get env = .ok none) ∧
    (∀ (ev : EnvMapInt) (env : Env), ev.IsZero = true →
      ev.Get env = .ok none) ∧
    (∀ (ev : EnvMapFloat) (env : Env), ev.IsZero = true →
      ev.Get env = .ok none) ∧
    (∀ (ev : EnvMapBool) (env : Env), ev.IsZero = true →
      ev.Get env = .ok none) := by
  refine ⟨?_, ?_, ?_, ?_, ?_, ?_, ?_, ?_, ?_, ?_, ?_, ?_⟩ <;>
    intro ev env h
  · simp [EnvString.Get, h]
  · simp [EnvInt.Get, h]
  · simp [EnvBool.Get, h]
  · simp [EnvFloat.Get, h]
  · simp [EnvStringSlice.Get, h]
  · simp [EnvIntSlice.Get, h]
  · simp [EnvFloatSlice.Get, h]
  · simp [EnvBoolSlice.Get, h]
  · obtain ⟨hvar, hval⟩ :
        (ev.Variable = none ∨ ev.Variable = some []) ∧ ev.Value = none := by
      simpa [EnvMapString.IsZero, Option.isNone_iff_eq_none] using h
    rcases hvar with h₁ | h₁ <;> simp [EnvMapString.Get, h₁, hval]
  · obtain ⟨hvar, hval⟩ :
        (ev.Variable = none ∨ ev.Variable = some []) ∧ ev.Value = none := by
      simpa [EnvMapInt.IsZero, Option.isNone_iff_eq_none] using h
    rcases hvar with h₁ | h₁ <;> simp [EnvMapInt.Get, h₁, hval]
  · obtain ⟨hvar, hval⟩ :
        (ev.Variable = none ∨ ev.Variable = some []) ∧ ev.Value = none := by
      simpa [EnvMapFloat.IsZero, Option.isNone_iff_eq_none] using h
    rcases hvar with h₁ | h₁ <;> simp [EnvMapFloat.Get, h₁, hval]
  · obtain ⟨hvar, hval⟩ :
        (ev.Variable = none ∨ ev.Variable = some []) ∧ ev.Value = none := by
      simpa [EnvMapBool.IsZero, Option.isNone_iff_eq_none] using h
    rcases hvar with h₁ | h₁ <;> simp [EnvMapBool.Get, h₁, hval]

/-- C1 witness: the zero-value policy evaluated on the zero value of
each variant (and on the present-but-empty variable name form, which is
also zero). -/
theorem c1_zero_value_policy_witness :
    EnvString.Get ⟨none, none⟩ envUndef = .error .valueRequired ∧
    EnvString.Get ⟨none, some []⟩ envUndef = .error .valueRequired ∧
    EnvInt.Get ⟨none, none⟩ envUndef = .error .valueRequired ∧
    EnvBool.Get ⟨none, none⟩ envUndef = .error .valueRequired ∧
    EnvFloat.Get ⟨none, none⟩ envUndef = .error .valueRequired ∧
    EnvStringSlice.Get ⟨none, none⟩ envUndef = .error .valueRequired ∧
    EnvIntSlice.Get ⟨none, none⟩ envUndef = .error .valueRequired ∧
    EnvFloatSlice.Get ⟨none, none⟩ envUndef = .error .valueRequired ∧
    EnvBoolSlice.Get ⟨none, none⟩ envUndef = .error .valueRequired ∧
    EnvMapString.Get ⟨none, none⟩ envUndef = .ok none ∧
    EnvMapInt.Get ⟨none, none⟩ envUndef = .ok none ∧
    EnvMapFloat.Get ⟨none, none⟩ envUndef = .ok none ∧
    EnvMapBool.Get ⟨none, none⟩ envUndef = .ok none :=
  ⟨c1_zero_value_policy.1 ⟨none, none⟩ envUndef rfl,
    c1_zero_value_policy.1 ⟨none, some []⟩ envUndef rfl,
    c1_zero_value_policy.2.1 ⟨none, none⟩ envUndef rfl,
    c1_zero_value_policy.2.2.1 ⟨none, none⟩ envUndef rfl,
    c1_zero_value_policy.2.2.2.1 ⟨none, none⟩ envUndef rfl,
    c1_zero_value_policy.2.2.2.2.1 ⟨none, none⟩ envUndef rfl,
    c1_zero_value_policy.2.2.2.2.2.1 ⟨none, none⟩ envUndef rfl,
    c1_zero_value_policy.2.2.2.2.2.2.1 ⟨none, none⟩ envUndef rfl,
    c1_zero_value_policy.2.2.2.2.2.2.2.1 ⟨none, none⟩ envUndef rfl,
    c1_zero_value_policy.2.2.2.2.2.2.2.2.1 ⟨none, none⟩ envUndef rfl,
    c1_zero_value_policy.2.2.2.2.2.2.2.2.2.1 ⟨none, none⟩ envUndef rfl,
    c1_zero_value_policy.2.2.2.2.2.2.2.2.2.2.1 ⟨none, none⟩ envUndef rfl,
    c1_zero_value_policy.2.2.2.2.2.2.2.2.2.2.2 ⟨none, none⟩ envUndef rfl⟩

/-- C2 counterexample: the claim says `GetCustom` also returns the
literal when the source yields no usable value.  `EnvString.GetCustom`
does not: with a present literal and a source answering the empty
string with no error, it forwards the source's answer verbatim and
returns `""`, not the literal — as the package's own test
(`empty_variable_returns_empty_string`) expects. -/
theorem c2_string_get_custom_skips_literal :
    EnvString.GetCustom ⟨some (gs "fallback"), some (gs "EMPTY_VAR")⟩
      (fun _ => .ok []) = .ok [] ∧
    EnvString.GetCustom ⟨some (gs "fallback"), some (gs "EMPTY_VAR")⟩
      (fun _ => .ok []) ≠ .ok (gs "fallback") := by
  refine ⟨rfl, ?_⟩
  decide

/-- C2 amended: with a non-empty variable name and a present literal,
`Get` returns the literal whenever the OS variable is undefined or
defined with the empty value, for every scalar, slice and map variant;
`GetCustom` returns the literal whenever the source answers the empty
string with no error — for every variant except `EnvString`, whose
`GetCustom` forwards the source's answer (the empty string) verbatim
without consulting the literal. -/
theorem c2_literal_fallback_policy :
    (∀ (name : GoStr) (env : Env), name ≠ [] →
      env name = none ∨ env name = some [] →
      (∀ lit : GoStr, EnvString.Get ⟨some lit, some name⟩ env = .ok lit) ∧
      (∀ lit : Int, EnvInt.Get ⟨some lit, some name⟩ env = .ok lit) ∧
      (∀ lit : Bool, EnvBool.Get ⟨some lit, some name⟩ env = .ok lit) ∧
      (∀ lit : Rat, EnvFloat.Get ⟨some lit, some name⟩ env = .ok lit) ∧
      (∀ lit : List GoStr,
        EnvStringSlice.Get ⟨some lit, some name⟩ env = .ok lit) ∧
      (∀ lit : List Int,
        EnvIntSlice.Get ⟨some lit, some name⟩ env = .ok lit) ∧
      (∀ lit : List Rat,
        EnvFloatSlice.Get ⟨some lit, some name⟩ env = .ok lit) ∧
      (∀ lit : List Bool,
        EnvBoolSlice.Get ⟨some lit, some name⟩ env = .ok lit) ∧
      (∀ lit : List (GoStr × GoStr),
        EnvMapString.Get ⟨some lit, some name⟩ env = .ok (some lit)) ∧
      (∀ lit : List (GoStr × Int),
        EnvMapInt.Get ⟨some lit, some name⟩ env = .ok (some lit)) ∧
      (∀ lit : List (GoStr × Rat),
        EnvMapFloat.Get ⟨some lit, some name⟩ env = .ok (some lit)) ∧
      (∀ lit : List (GoStr × Bool),
        EnvMapBool.Get ⟨some lit, some name⟩ env = .ok (some lit))) ∧
    (∀ (name : GoStr) (f : GetEnvFunc), name ≠ [] → f name = .ok [] →
      (∀ lit : Int, EnvInt.GetCustom ⟨some lit, some name⟩ f = .ok lit) ∧
      (∀ lit : Bool, EnvBool.GetCustom ⟨some lit, some name⟩ f = .ok lit) ∧
      (∀ lit : Rat, EnvFloat.GetCustom ⟨some lit, some name⟩ f = .ok lit) ∧
      (∀ lit : List GoStr,
        EnvStringSlice.GetCustom ⟨some lit, some name⟩ f = .ok lit) ∧
      (∀ lit : List Int,
        EnvIntSlice.GetCustom ⟨some lit, some name⟩ f = .ok lit) ∧
      (∀ lit : List Rat,
        EnvFloatSlice.GetCustom ⟨some lit, some name⟩ f = .ok lit) ∧
      (∀ lit : List Bool,
        EnvBoolSlice.GetCustom ⟨some lit, some name⟩ f = .ok lit) ∧
      (∀ lit : List (GoStr × GoStr),
        EnvMapString.GetCustom ⟨some lit, some name⟩ f = .ok (some lit)) ∧
      (∀ lit : List (GoStr × Int),
        EnvMapInt.GetCustom ⟨some lit, some name⟩ f = .ok (some lit)) ∧
      (∀ lit : List (GoStr × Rat),
        EnvMapFloat.GetCustom ⟨some lit, some name⟩ f = .ok (some lit)) ∧
      (∀ lit : List (GoStr × Bool),
        EnvMapBool.GetCustom ⟨some lit, some name⟩ f = .ok (some lit)) ∧
      (∀ lit : GoStr,
        EnvString.GetCustom ⟨some lit, some name⟩ f = .ok [])) := by
  constructor
  · intro name env hne hempty
    have hraw : osGetenv env name = [] := by
      rcases hempty with h | h <;> simp [osGetenv, h]
    have hprobe : (osLookupEnv env name).1 = [] := by
      rcases hempty with h | h <;> simp [osLookupEnv, h]
    refine ⟨?_, ?_, ?_, ?_, ?_, ?_, ?_, ?_, ?_, ?_, ?_, ?_⟩ <;> intro lit
    · simp [EnvString.Get, EnvString.IsZero, hne, osLookupEnv]
      rcases hempty with h | h <;> simp [h]
    · simp [EnvInt.Get, EnvInt.IsZero, hne, hraw]
    · simp [EnvBool.Get, EnvBool.IsZero, hne, hraw]
    · simp [EnvFloat.Get, EnvFloat.IsZero, hne, hraw]
    · simp [EnvStringSlice.Get, EnvStringSlice.IsZero, hne, osLookupEnv]
      rcases hempty with h | h <;> simp [h]
    · simp [EnvIntSlice.Get, EnvIntSlice.IsZero, hne, osLookupEnv]
      rcases hempty with h | h <;> simp [h]
    · simp [EnvFloatSlice.Get, EnvFloatSlice.IsZero, hne, osLookupEnv]
      rcases hempty with h | h <;> simp [h]
    · simp [EnvBoolSlice.Get, EnvBoolSlice.IsZero, hne, osLookupEnv]
      rcases hempty with h | h <;> simp [h]
    · simp [EnvMapString.Get, hne, hraw]
    · simp [EnvMapInt.Get, hne, hraw]
    · simp [EnvMapFloat.Get, hne, hraw]
    · simp [EnvMapBool.Get, hne, hraw]
  · intro name f hne hf
    refine ⟨?_, ?_, ?_, ?_, ?_, ?_, ?_, ?_, ?_, ?_, ?_, ?_⟩ <;> intro lit
    · simp [EnvInt.GetCustom, EnvInt.IsZero, hne, hf]
    · simp [EnvBool.GetCustom, EnvBool.IsZero, hne, hf]
    · simp [EnvFloat.GetCustom, EnvFloat.IsZero, hne, hf]
    · simp [EnvStringSlice.GetCustom, EnvStringSlice.IsZero, hne, hf]
    · simp [EnvIntSlice.GetCustom, EnvIntSlice.IsZero, hne, hf]
    · simp [EnvFloatSlice.GetCustom, EnvFloatSlice.IsZero, hne, hf]
    · simp [EnvBoolSlice.GetCustom, EnvBoolSlice.IsZero, hne, hf]
    · simp [EnvMapString.GetCustom, hne, hf]
    · simp [EnvMapInt.GetCustom, hne, hf]
    · simp [EnvMapFloat.GetCustom, hne, hf]
    · simp [EnvMapBool.GetCustom, hne, hf]
    · simp [EnvString.GetCustom, EnvString.IsZero, hne, hf]

/-- C2 witness: the fallback policy evaluated at concrete inputs — an
undefined variable and a defined-but-empty variable both fall back to
the present literal under `Get`; a source answering the empty string
falls back to the literal under `GetCustom` for the int, slice and map
variants, while `EnvString.GetCustom` returns the empty string. -/
theorem c2_literal_fallback_policy_witness :
    EnvString.Get ⟨some (gs "L"), some (gs "V")⟩ envUndef = .ok (gs "L") ∧
    EnvString.Get ⟨some (gs "L"), some (gs "V")⟩
      (envDefs [(gs "V", [])]) = .ok (gs "L") ∧
    EnvInt.Get ⟨some 100, some (gs "V")⟩ envUndef = .ok 100 ∧
    EnvIntSlice.Get ⟨some [100], some (gs "V")⟩ envUndef = .ok [100] ∧
    EnvMapString.Get ⟨some [(gs "k", gs "w")], some (gs "V")⟩ envUndef =
      .ok (some [(gs "k", gs "w")]) ∧
    EnvInt.GetCustom ⟨some 42, some (gs "V")⟩ (fun _ => .ok []) =
      .ok 42 ∧
    EnvStringSlice.GetCustom ⟨some [gs "a"], some (gs "V")⟩
      (fun _ => .ok []) = .ok [gs "a"] ∧
    EnvMapInt.GetCustom ⟨some [(gs "k", 1)], some (gs "V")⟩
      (fun _ => .ok []) = .ok (some [(gs "k", 1)]) ∧
    EnvString.GetCustom ⟨some (gs "L"), some (gs "V")⟩
      (fun _ => .ok []) = .ok [] :=
  ⟨((c2_literal_fallback_policy.1 (gs "V") envUndef (by decide)
      (Or.inl rfl)).1 (gs "L")),
    ((c2_literal_fallback_policy.1 (gs "V") (envDefs [(gs "V", [])])
      (by decide) (Or.inr (by decide))).1 (gs "L")),
    ((c2_literal_fallback_policy.1 (gs "V") envUndef (by decide)
      (Or.inl rfl)).2.1 100),
    ((c2_literal_fallback_policy.1 (gs "V") envUndef (by decide)
      (Or.inl rfl)).2.2.2.2.2.1 [100]),
    ((c2_literal_fallback_policy.1 (gs "V") envUndef (by decide)
      (Or.inl rfl)).2.2.2.2.2.2.2.2.1 [(gs "k", gs "w")]),
    ((c2_literal_fallback_policy.2 (gs "V") (fun _ => .ok [])
      (by decide) rfl).1 42),
    ((c2_literal_fallback_policy.2 (gs "V") (fun _ => .ok [])
      (by decide) rfl).2.2.2.1 [gs "a"]),
    ((c2_literal_fallback_policy.2 (gs "V") (fun _ => .ok [])
      (by decide) rfl).2.2.2.2.2.2.2.2.1 [(gs "k", 1)]),
    ((c2_literal_fallback_policy.2 (gs "V") (fun _ => .ok [])
      (by decide) rfl).2.2.2.2.2.2.2.2.2.2.2 (gs "L"))⟩

/-- C3 counterexample: the claim says a defined-but-empty variable with
no literal makes `Get` fail with `VariableValueRequired` for every
scalar and composite variant.  `EnvString` (which probes definedness
via `os.LookupEnv`) instead succeeds with the empty string. -/
theorem c3_defined_empty_string_succeeds :
    EnvString.Get ⟨none, some (gs "EMPTY_VAR")⟩
      (envDefs [(gs "EMPTY_VAR", [])]) = .ok [] ∧
    EnvString.Get ⟨none, some (gs "EMPTY_VAR")⟩
      (envDefs [(gs "EMPTY_VAR", [])]) ≠
      .error (.variableValueRequired (some (gs "EMPTY_VAR"))) := by
  constructor
  · decide
  · decide

/-- C3 amended: with a non-empty variable name, no literal, and the
variable defined with the empty value: the `int`, `bool` and `float`
scalars (which read through `os.Getenv` and cannot see definedness)
fail with `VariableValueRequired` naming the variable, as for an
undefined variable; but `EnvString` succeeds with the empty string, the
four slice variants succeed with the empty slice, and the four map
variants succeed with the nil literal. -/
theorem c3_defined_empty_policy :
    ∀ (name : GoStr) (env : Env), name ≠ [] → env name = some [] →
      (EnvInt.Get ⟨none, some name⟩ env =
        .error (.variableValueRequired (some name)) ∧
       EnvBool.Get ⟨none, some name⟩ env =
        .error (.variableValueRequired (some name)) ∧
       EnvFloat.Get ⟨none, some name⟩ env =
        .error (.variableValueRequired (some name))) ∧
      EnvString.Get ⟨none, some name⟩ env = .ok [] ∧
      (EnvStringSlice.Get ⟨none, some name⟩ env = .ok [] ∧
       EnvIntSlice.Get ⟨none, some name⟩ env = .ok [] ∧
       EnvFloatSlice.Get ⟨none, some name⟩ env = .ok [] ∧
       EnvBoolSlice.Get ⟨none, some name⟩ env = .ok []) ∧
      (EnvMapString.Get ⟨none, some name⟩ env = .ok none ∧
       EnvMapInt.Get ⟨none, some name⟩ env = .ok none ∧
       EnvMapFloat.Get ⟨none, some name⟩ env = .ok none ∧
       EnvMapBool.Get ⟨none, some name⟩ env = .ok none) := by
  intro name env hne hdef
  have hraw : osGetenv env name = [] := by simp [osGetenv, hdef]
  refine ⟨⟨?_, ?_, ?_⟩, ?_, ⟨?_, ?_, ?_, ?_⟩, ⟨?_, ?_, ?_, ?_⟩⟩
  · simp [EnvInt.Get, EnvInt.IsZero, hne, hraw,
      getEnvVariableValueRequiredError]
  · simp [EnvBool.Get, EnvBool.IsZero, hne, hraw,
      getEnvVariableValueRequiredError]
  · simp [EnvFloat.Get, EnvFloat.IsZero, hne, hraw,
      getEnvVariableValueRequiredError]
  · simp [EnvString.Get, EnvString.IsZero, hne, osLookupEnv, hdef]
  · simp [EnvStringSlice.Get, EnvStringSlice.IsZero, hne, osLookupEnv,
      hdef]
  · simp [EnvIntSlice.Get, EnvIntSlice.IsZero, hne, osLookupEnv, hdef]
  · simp [EnvFloatSlice.Get, EnvFloatSlice.IsZero, hne, osLookupEnv,
      hdef]
  · simp [EnvBoolSlice.Get, EnvBoolSlice.IsZero, hne, osLookupEnv, hdef]
  · simp [EnvMapString.Get, hne, hraw]
  · simp [EnvMapInt.Get, hne, hraw]
  · simp [EnvMapFloat.Get, hne, hraw]
  · simp [EnvMapBool.Get, hne, hraw]

/-- C3 witness: the defined-but-empty policy evaluated at a concrete
variable defined with the empty value and no literal. -/
theorem c3_defined_empty_policy_witness :
    EnvInt.Get ⟨none, some (gs "E")⟩ (envDefs [(gs "E", [])]) =
      .error (.variableValueRequired (some (gs "E"))) ∧
    EnvString.Get ⟨none, some (gs "E")⟩ (envDefs [(gs "E", [])]) =
      .ok [] ∧
    EnvIntSlice.Get ⟨none, some (gs "E")⟩ (envDefs [(gs "E", [])]) =
      .ok [] ∧
    EnvMapBool.Get ⟨none, some (gs "E")⟩ (envDefs [(gs "E", [])]) =
      .ok none :=
  ⟨(c3_defined_empty_policy (gs "E") (envDefs [(gs "E", [])])
      (by decide) (by decide)).1.1,
    (c3_defined_empty_policy (gs "E") (envDefs [(gs "E", [])])
      (by decide) (by decide)).2.1,
    (c3_defined_empty_policy (gs "E") (envDefs [(gs "E", [])])
      (by decide) (by decide)).2.2.1.2.1,
    (c3_defined_empty_policy (gs "E") (envDefs [(gs "E", [])])
      (by decide) (by decide)).2.2.2.2.2.2⟩

/-- C5 counterexample: the claim says every slice parser maps the empty
input to an empty sequence without error, and trims every item.  The
string slice parser maps the empty input to the one-element sequence
containing the empty string, the int slice parser fails on the empty
input (its sole item fails integer conversion at index 0), and the
string slice parser does not trim items at all. -/
theorem c5_empty_input_and_no_trim :
    ParseStringSliceFromString [] = [[]] ∧
    ParseStringSliceFromString [] ≠ [] ∧
    parseIntSliceFromStringWithErrorPrefix 64 true [] [] =
      .error (.parseEnvFailed (gs "invalid integer slice syntax")
        (gs "0")) ∧
    ParseStringSliceFromString (gs "foo, bar") = [gs "foo", gs " bar"] ∧
    ParseStringSliceFromString (gs "foo, bar") ≠ [gs "foo", gs "bar"] := by
  refine ⟨rfl, ?_, ?_, ?_, ?_⟩ <;> decide

/-- C5 amended: every slice parser splits the input on commas.  The
string parser performs no trimming: joining comma-free items with
commas and parsing returns exactly those items, whitespace included.
The int, float and bool parsers each trim every item of surrounding
whitespace before primitive conversion: parsing the comma-joined items
succeeds with the converted values whenever each trimmed item parses.
The empty input string is NOT an empty sequence at the parser level:
the string parser yields the one-element sequence containing the empty
string, and the int/float/bool parsers fail with `ParseFailed` at
index 0 (the resolvers map an empty variable value to an empty slice
one layer up). -/
theorem c5_slice_grammar :
    (∀ items : List GoStr, items ≠ [] → (∀ s ∈ items, ',' ∉ s) →
      ParseStringSliceFromString (goJoin [','] items) = items) ∧
    (∀ (items : List GoStr) (ns : List Int) (p : GoStr), items ≠ [] →
      (∀ s ∈ items, ',' ∉ s) →
      List.Forall₂ (fun s n => parseInt64 (trimSpace s) = some n)
        items ns →
      parseIntSliceFromStringWithErrorPrefix 64 true (goJoin [','] items)
        p = .ok ns) ∧
    (∀ (items : List GoStr) (qs : List Rat) (p : GoStr), items ≠ [] →
      (∀ s ∈ items, ',' ∉ s) →
      List.Forall₂ (fun s q => parseFloat64 (trimSpace s) = some q)
        items qs →
      parseFloatSliceFromStringWithErrorPrefix (goJoin [','] items)
        p = .ok qs) ∧
    (∀ (items : List GoStr) (bs : List Bool) (p : GoStr), items ≠ [] →
      (∀ s ∈ items, ',' ∉ s) →
      List.Forall₂ (fun s b => parseBoolGo (trimSpace s) = some b)
        items bs →
      parseBoolSliceFromStringWithErrorPrefix (goJoin [','] items)
        p = .ok bs) ∧
    ParseStringSliceFromString [] = [[]] ∧
    parseIntSliceFromStringWithErrorPrefix 64 true [] [] =
      .error (.parseEnvFailed (gs "invalid integer slice syntax")
        (gs "0")) ∧
    parseFloatSliceFromStringWithErrorPrefix [] [] =
      .error (.parseEnvFailed
        (gs "invalid floating-point number slice syntax") (gs "0")) ∧
    parseBoolSliceFromStringWithErrorPrefix [] [] =
      .error (.parseEnvFailed (gs "invalid boolean slice syntax")
        (gs "0")) := by
  refine ⟨?_, ?_, ?_, ?_, rfl, by decide, by decide, by decide⟩
  · intro items hne h
    exact splitOn_goJoin hne h
  · intro items ns p hne h hf
    rw [parseIntSliceFromStringWithErrorPrefix, ParseStringSliceFromString,
      splitOn_goJoin hne h]
    exact parseIntSliceItems_ok_of_forall₂ hf 0
  · intro items qs p hne h hf
    rw [parseFloatSliceFromStringWithErrorPrefix,
      ParseStringSliceFromString, splitOn_goJoin hne h]
    exact parseFloatSliceItems_ok_of_forall₂ hf 0
  · intro items bs p hne h hf
    rw [parseBoolSliceFromStringWithErrorPrefix,
      ParseStringSliceFromString, splitOn_goJoin hne h]
    exact parseBoolSliceItems_ok_of_forall₂ hf 0

/-- C5 witness: the amended slice grammar evaluated at concrete inputs —
`"foo,bar,baz"` parses to its three raw items; `" 1 ,2"` parses as an
int slice to `[1, 2]`, `" 7 ,8"` as a float slice to `[7, 8]`, and
`" true ,false"` as a bool slice to `[true, false]`, each after
per-item trimming. -/
theorem c5_slice_grammar_witness :
    ParseStringSliceFromString
      (goJoin [','] [gs "foo", gs "bar", gs "baz"]) =
      [gs "foo", gs "bar", gs "baz"] ∧
    parseIntSliceFromStringWithErrorPrefix 64 true
      (goJoin [','] [gs " 1 ", gs "2"]) [] = .ok [1, 2] ∧
    parseFloatSliceFromStringWithErrorPrefix
      (goJoin [','] [gs " 7 ", gs "8"]) [] = .ok [7, 8] ∧
    parseBoolSliceFromStringWithErrorPrefix
      (goJoin [','] [gs " true ", gs "false"]) [] =
      .ok [true, false] :=
  ⟨c5_slice_grammar.1 [gs "foo", gs "bar", gs "baz"] (by decide)
      (by decide),
    c5_slice_grammar.2.1 [gs " 1 ", gs "2"] [1, 2] [] (by decide)
      (by decide)
      (List.Forall₂.cons (by decide)
        (List.Forall₂.cons (by decide) List.Forall₂.nil)),
    c5_slice_grammar.2.2.1 [gs " 7 ", gs "8"] [7, 8] [] (by decide)
      (by decide)
      (List.Forall₂.cons (by decide)
        (List.Forall₂.cons (by decide) List.Forall₂.nil)),
    c5_slice_grammar.2.2.2.1 [gs " true ", gs "false"] [true, false] []
      (by decide) (by decide)
      (List.Forall₂.cons (by decide)
        (List.Forall₂.cons (by decide) List.Forall₂.nil))⟩

/-- C6: the map grammar — semicolon-separated `key=value` pairs.  The
empty input yields the empty mapping with no error in all four map
parsers.  For a non-empty input, the string-map parse succeeds exactly
when every semicolon-separated pair splits on `=` into exactly two
parts with a non-empty key; a failing parse reports `ParseFailed`
carrying as hint the offending pair's first `=`-segment (for a pair
with no `=`, the whole pair).  A string-map syntax error propagates
unchanged through the typed map parsers.  Concretely, `"foo=2;bar=3"`
parses as an integer map to `{foo: 2, bar: 3}` and `"a;b=2"` fails
citing the fragment `"a"`. -/
theorem c6_map_grammar :
    (ParseStringMapFromString [] = .ok [] ∧
     ParseIntegerMapFromString 64 true [] = .ok [] ∧
     ParseFloatMapFromString [] = .ok [] ∧
     ParseBoolMapFromString [] = .ok []) ∧
    (∀ input : GoStr, input ≠ [] →
      ((∃ m, ParseStringMapFromString input = .ok m) ↔
        ∀ p ∈ splitOn ';' input, goodPair p = true)) ∧
    (∀ (input : GoStr) (e : GoErr),
      ParseStringMapFromString input = .error e →
      ∃ p ∈ splitOn ';' input, goodPair p = false ∧
        e = NewParseEnvFailedError stringMapSyntaxMsg (pairKey p)) ∧
    (∀ (input : GoStr) (e : GoErr),
      ParseStringMapFromString input = .error e →
      ParseIntegerMapFromString 64 true input = .error e ∧
      ParseFloatMapFromString input = .error e ∧
      ParseBoolMapFromString input = .error e) ∧
    (ParseIntegerMapFromString 64 true (gs "foo=2;bar=3") =
      .ok [(gs "foo", 2), (gs "bar", 3)] ∧
     ParseStringMapFromString (gs "a;b=2") =
      .error (.parseEnvFailed stringMapSyntaxMsg (gs "a"))) := by
  refine ⟨⟨rfl, rfl, rfl, rfl⟩, ?_, ?_, ?_, by decide, by decide⟩
  · intro input hne
    rw [ParseStringMapFromString, if_neg hne]
    exact parseStringMapItems_ok_iff (splitOn ';' input) []
  · intro input e h
    by_cases hne : input = []
    · rw [hne] at h
      exact Except.noConfusion h
    · rw [ParseStringMapFromString, if_neg hne] at h
      exact parseStringMapItems_error (splitOn ';' input) [] h
  · intro input e h
    refine ⟨?_, ?_, ?_⟩
    · rw [ParseIntegerMapFromString, h]
    · rw [ParseFloatMapFromString, h]
    · rw [ParseBoolMapFromString, h]

/-- C6 witness: the grammar characterization evaluated at concrete
inputs — `"foo=2"` satisfies the pair grammar and parses, and the
failing parse of `"a;b=2"` is witnessed by the offending pair `"a"`
whose key segment is the reported hint. -/
theorem c6_map_grammar_witness :
    (∃ m, ParseStringMapFromString (gs "foo=2") = .ok m) ∧
    (∃ p ∈ splitOn ';' (gs "a;b=2"), goodPair p = false ∧
      (GoErr.parseEnvFailed stringMapSyntaxMsg (gs "a") : GoErr) =
        NewParseEnvFailedError stringMapSyntaxMsg (pairKey p)) :=
  ⟨(c6_map_grammar.2.1 (gs "foo=2") (by decide)).mpr (by decide),
    c6_map_grammar.2.2.1 (gs "a;b=2")
      (.parseEnvFailed stringMapSyntaxMsg (gs "a")) (by decide)⟩

/-- C9: equality semantics of the slice and map families.  For every
slice variant, an absent (nil) literal compares `Equal` to an
explicitly-empty literal slice under the same variable field, and
`Equal` is reflexive and symmetric outright.  For every map variant, an
absent (nil) literal map is NOT `Equal` to an explicitly-empty literal
map, and `Equal` is reflexive and symmetric on well-formed
(duplicate-key-free) map values — the only values a Go map can hold. -/
theorem c9_equality_semantics :
    (∀ va : Option GoStr,
      EnvStringSlice.Equal ⟨none, va⟩ ⟨some [], va⟩ = true ∧
      EnvIntSlice.Equal ⟨none, va⟩ ⟨some [], va⟩ = true ∧
      EnvFloatSlice.Equal ⟨none, va⟩ ⟨some [], va⟩ = true ∧
      EnvBoolSlice.Equal ⟨none, va⟩ ⟨some [], va⟩ = true) ∧
    (∀ va : Option GoStr,
      EnvMapString.Equal ⟨none, va⟩ ⟨some [], va⟩ = false ∧
      EnvMapInt.Equal ⟨none, va⟩ ⟨some [], va⟩ = false ∧
      EnvMapFloat.Equal ⟨none, va⟩ ⟨some [], va⟩ = false ∧
      EnvMapBool.Equal ⟨none, va⟩ ⟨some [], va⟩ = false) ∧
    ((∀ a : EnvStringSlice, a.Equal a = true) ∧
     (∀ a : EnvIntSlice, a.Equal a = true) ∧
     (∀ a : EnvFloatSlice, a.Equal a = true) ∧
     (∀ a : EnvBoolSlice, a.Equal a = true)) ∧
    ((∀ a b : EnvStringSlice, a.Equal b = b.Equal a) ∧
     (∀ a b : EnvIntSlice, a.Equal b = b.Equal a) ∧
     (∀ a b : EnvFloatSlice, a.Equal b = b.Equal a) ∧
     (∀ a b : EnvBoolSlice, a.Equal b = b.Equal a)) ∧
    ((∀ a : EnvMapString, GoMapValueWF a.Value → a.Equal a = true) ∧
     (∀ a : EnvMapInt, GoMapValueWF a.Value → a.Equal a = true) ∧
     (∀ a : EnvMapFloat, GoMapValueWF a.Value → a.Equal a = true) ∧
     (∀ a : EnvMapBool, GoMapValueWF a.Value → a.Equal a = true)) ∧
    ((∀ a b : EnvMapString, GoMapValueWF a.Value → GoMapValueWF b.Value →
        a.Equal b = b.Equal a) ∧
     (∀ a b : EnvMapInt, GoMapValueWF a.Value → GoMapValueWF b.Value →
        a.Equal b = b.Equal a) ∧
     (∀ a b : EnvMapFloat, GoMapValueWF a.Value → GoMapValueWF b.Value →
        a.Equal b = b.Equal a) ∧
     (∀ a b : EnvMapBool, GoMapValueWF a.Value → GoMapValueWF b.Value →
        a.Equal b = b.Equal a)) := by
  refine ⟨?_, ?_, ?_, ?_, ?_, ?_⟩
  · intro va
    refine ⟨?_, ?_, ?_, ?_⟩ <;> simp [EnvStringSlice.Equal,
      EnvIntSlice.Equal, EnvFloatSlice.Equal, EnvBoolSlice.Equal,
      goSlicesEqual]
  · intro va
    refine ⟨?_, ?_, ?_, ?_⟩ <;> simp [EnvMapString.Equal,
      EnvMapInt.Equal, EnvMapFloat.Equal, EnvMapBool.Equal]
  · refine ⟨?_, ?_, ?_, ?_⟩ <;> intro a <;> simp [EnvStringSlice.Equal,
      EnvIntSlice.Equal, EnvFloatSlice.Equal, EnvBoolSlice.Equal,
      goSlicesEqual]
  · refine ⟨fun a b => ?_, fun a b => ?_, fun a b => ?_, fun a b => ?_⟩ <;>
      · simp only [EnvStringSlice.Equal, EnvIntSlice.Equal,
          EnvFloatSlice.Equal, EnvBoolSlice.Equal, goSlicesEqual]
        congr 1
        · exact decide_eq_decide.mpr eq_comm
        · exact decide_eq_decide.mpr eq_comm
  · refine ⟨fun a h => ?_, fun a h => ?_, fun a h => ?_, fun a h => ?_⟩ <;>
      · rcases hv : a.Value with _ | m
        · simp [EnvMapString.Equal, EnvMapInt.Equal, EnvMapFloat.Equal,
            EnvMapBool.Equal, hv]
        · have wf : GoMapWF m := by
            have h₂ := h
            rw [GoMapValueWF, hv] at h₂
            exact h₂
          simp [EnvMapString.Equal, EnvMapInt.Equal, EnvMapFloat.Equal,
            EnvMapBool.Equal, hv, goMapEqual_refl wf]
  · refine ⟨fun a b ha hb => ?_, fun a b ha hb => ?_,
      fun a b ha hb => ?_, fun a b ha hb => ?_⟩ <;>
      · by_cases hvar : a.Variable = b.Variable
        · rcases hva : a.Value with _ | m₁ <;> rcases hvb : b.Value with _ | m₂
          · simp [EnvMapString.Equal, EnvMapInt.Equal, EnvMapFloat.Equal,
              EnvMapBool.Equal, hvar, hva, hvb]
          · simp [EnvMapString.Equal, EnvMapInt.Equal, EnvMapFloat.Equal,
              EnvMapBool.Equal, hvar, hva, hvb]
          · simp [EnvMapString.Equal, EnvMapInt.Equal, EnvMapFloat.Equal,
              EnvMapBool.Equal, hvar, hva, hvb]
          · have wf₁ : GoMapWF m₁ := by
              have h₂ := ha
              rw [GoMapValueWF, hva] at h₂
              exact h₂
            have wf₂ : GoMapWF m₂ := by
              have h₂ := hb
              rw [GoMapValueWF, hvb] at h₂
              exact h₂
            simp [EnvMapString.Equal, EnvMapInt.Equal, EnvMapFloat.Equal,
              EnvMapBool.Equal, hvar, hva, hvb,
              goMapEqual_symm wf₁ wf₂]
        · have hvar₂ : ¬ (b.Variable = a.Variable) := fun hc => hvar hc.symm
          simp [EnvMapString.Equal, EnvMapInt.Equal, EnvMapFloat.Equal,
            EnvMapBool.Equal, hvar, hvar₂]

/-- C9 witness: the equality semantics evaluated at concrete values —
nil-vs-empty comparison for a slice and a map under the same variable
name, reflexivity and symmetry instances, with concrete duplicate-free
literal maps. -/
theorem c9_equality_semantics_witness :
    EnvStringSlice.Equal ⟨none, some (gs "V")⟩ ⟨some [], some (gs "V")⟩ =
      true ∧
    EnvMapString.Equal ⟨none, some (gs "V")⟩ ⟨some [], some (gs "V")⟩ =
      false ∧
    EnvIntSlice.Equal ⟨some [1], none⟩ ⟨some [1], none⟩ = true ∧
    EnvIntSlice.Equal ⟨some [1], none⟩ ⟨some [2], none⟩ =
      EnvIntSlice.Equal ⟨some [2], none⟩ ⟨some [1], none⟩ ∧
    EnvMapInt.Equal ⟨some [(gs "k", 1), (gs "j", 2)], none⟩
      ⟨some [(gs "k", 1), (gs "j", 2)], none⟩ = true ∧
    EnvMapInt.Equal ⟨some [(gs "k", 1), (gs "j", 2)], none⟩
      ⟨some [(gs "j", 2), (gs "k", 1)], none⟩ =
      EnvMapInt.Equal ⟨some [(gs "j", 2), (gs "k", 1)], none⟩
        ⟨some [(gs "k", 1), (gs "j", 2)], none⟩ :=
  ⟨(c9_equality_semantics.1 (some (gs "V"))).1,
    (c9_equality_semantics.2.1 (some (gs "V"))).1,
    (c9_equality_semantics.2.2.1.2.1 ⟨some [1], none⟩),
    (c9_equality_semantics.2.2.2.1.2.1 ⟨some [1], none⟩ ⟨some [2], none⟩),
    (c9_equality_semantics.2.2.2.2.1.2.1
      ⟨some [(gs "k", 1), (gs "j", 2)], none⟩ (by decide)),
    (c9_equality_semantics.2.2.2.2.2.2.1
      ⟨some [(gs "k", 1), (gs "j", 2)], none⟩
      ⟨some [(gs "j", 2), (gs "k", 1)], none⟩ (by decide) (by decide))⟩

end Goenvconf
